import Mathlib

/-!
Verification of gonode: signature extraction and emission.

A shallow embedding of the extraction stage of gonode (`parser/parser.go`):
the Go syntax tree fragments that `Parser.Parse` and `Parser.ParseFuncDecl`
inspect, the type mapper (`parseGoTypeExpr`, `goTypeToJsType`), the
documentation extraction and the traversal of a parsed file; and of the
generation stage (`generator/generator.go`, `generator_cpp.go`,
`generator_typescript.go`): the native-wrapper emitter, the declaration
emitter and the driver that runs both; and of the configuration record
(`internal/config/config.go`).

Go strings are modelled by Lean strings (sequences of code points; Go source
text is valid UTF-8, so prefix, suffix and trimming agree with the byte-level
functions of package `strings`).  A Go call has one of three outcomes: it
returns a value, it returns a non-nil `error`, or it aborts with a run-time
panic.
-/

namespace Gonode

/-! ## Package `strings` -/

/-- Unicode white space as decided by Go's `unicode.IsSpace`. -/
def isSpace (c : Char) : Bool :=
  c = '\t' || c = '\n' || c.val = 0x0B || c.val = 0x0C || c = '\r' || c = ' ' ||
  c.val = 0x85 || c.val = 0xA0 || c.val = 0x1680 ||
  (0x2000 ≤ c.val && c.val ≤ 0x200A) ||
  c.val = 0x2028 || c.val = 0x2029 || c.val = 0x202F || c.val = 0x205F || c.val = 0x3000

/-- Go `strings.HasPrefix`. -/
def HasPrefix (s pre : String) : Bool :=
  pre.data.isPrefixOf s.data

/-- Go `strings.HasSuffix`. -/
def HasSuffix (s suf : String) : Bool :=
  suf.data.isSuffixOf s.data

/-- Go `strings.TrimPrefix`: the string without the given leading text, or the
string itself when it does not start with it. -/
def TrimPrefix (s pre : String) : String :=
  if HasPrefix s pre then ⟨s.data.drop pre.data.length⟩ else s

/-- Go `strings.TrimSuffix`: the string without the given trailing text, or the
string itself when it does not end with it. -/
def TrimSuffix (s suf : String) : String :=
  if HasSuffix s suf then ⟨s.data.take (s.data.length - suf.data.length)⟩ else s

/-- Go `strings.TrimSpace`: leading and trailing white space removed. -/
def TrimSpace (s : String) : String :=
  ⟨((s.data.dropWhile isSpace).reverse.dropWhile isSpace).reverse⟩

/-! ## The fragment of `go/ast` that the extractor inspects -/

/-- Go `ast.Expr`: the node kinds the type mapper distinguishes, and a few of
the kinds that reach its default arm. -/
inductive Expr where
  | Ident (Name : String)
  | StarExpr (X : Expr)
  | SelectorExpr (X : Expr) (Sel : String)
  | ArrayType (Elt : Expr)
  | MapType (Key : Expr) (Value : Expr)
  | Ellipsis (Elt : Expr)
  | ParenExpr (X : Expr)
  | InterfaceType
  | Other (kind : String)
  deriving DecidableEq, Repr

/-- Go `ast.Comment`: one `//` line or one `/* */` block, with its delimiters. -/
structure Comment where
  Text : String
  deriving DecidableEq, Repr

/-- Go `ast.Field`: a group of names sharing a type; `Names` is empty for an
unnamed parameter or result, `Typ` is the field `Type` (which may be nil). -/
structure Field where
  Names : List String
  Typ : Option Expr
  deriving DecidableEq, Repr

/-- Go `ast.FuncType`: `Params` is documented non-nil, `Results` may be nil. -/
structure FuncType where
  Params : List Field
  Results : Option (List Field)
  deriving DecidableEq, Repr

/-- Go `ast.FuncDecl`: `Doc` is the attached comment group, or nil. -/
structure FuncDecl where
  Doc : Option (List Comment)
  Name : String
  Typ : FuncType
  deriving DecidableEq, Repr

/-- Go `ast.Decl`: the top-level declarations of a file. -/
inductive Decl where
  | FuncDecl (node : FuncDecl)
  | GenDecl
  | BadDecl
  deriving DecidableEq, Repr

/-- Go `ast.File`, reduced to its declarations. -/
structure File where
  Decls : List Decl
  deriving DecidableEq, Repr

/-! ## Records and errors of package `parser` -/

def JavaScriptStringType : String := "string"

def JavaScriptNumberType : String := "number"

structure ExportedFunctionParam where
  Name : String
  Typ : String
  deriving DecidableEq, Repr

structure ExportedFunction where
  Name : String
  Params : List ExportedFunctionParam
  Doc : String
  ReturnType : String
  deriving DecidableEq, Repr

/-- The errors the extractor creates, one constructor per `fmt.Errorf` or
`errors.New` site of `parser.go`. -/
inductive ParseError where
  /-- Site `fmt.Errorf("unsupported star expression: %v", xv)`. -/
  | unsupportedStarExpr (xv : Expr)
  /-- Site `fmt.Errorf("unsupported type: %v", expr)`; `none` is a nil expression. -/
  | unsupportedTypeExpr (expr : Option Expr)
  /-- Site `fmt.Errorf("unsupported type: %v", goReturnType)`. -/
  | unsupportedType (goReturnType : String)
  /-- Site `errors.New("an exported function can only have one return type")`. -/
  | multipleReturnTypes
  deriving DecidableEq, Repr

/-- The three unsupported-type errors of the type mapper. -/
def ParseError.isUnsupportedType : ParseError → Bool
  | .unsupportedStarExpr _ => true
  | .unsupportedTypeExpr _ => true
  | .unsupportedType _ => true
  | .multipleReturnTypes => false

/-- The run-time panics the extractor can raise. -/
inductive Panic where
  /-- A failed unchecked type assertion `x.(*ast.Ident)`. -/
  | typeAssertion
  /-- An index expression `list[0]` on an empty slice. -/
  | indexOutOfRange
  /-- A field access through a nil pointer. -/
  | nilDereference
  deriving DecidableEq, Repr

/-- Outcome of a Go call of result type `(α, error)`. -/
inductive Outcome (α : Type) where
  | ok (value : α)
  | err (e : ParseError)
  | panic (p : Panic)
  deriving DecidableEq, Repr

/-! ## The type mapper -/

/-- Go `goTypeToJsType`. -/
def goTypeToJsType (goReturnType : String) : Outcome String :=
  if goReturnType = "*C.char" then .ok "string"
  else if goReturnType = "float64" ∨ goReturnType = "float32" ∨ goReturnType = "int" ∨
      goReturnType = "int8" ∨ goReturnType = "int16" ∨ goReturnType = "int32" ∨
      goReturnType = "int64" then .ok "number"
  else .err (.unsupportedType goReturnType)

/-- Go `parseGoTypeExpr`: the type switch on the expression, the nested type
switch on the operand of a pointer, and the unchecked assertion
`xv.X.(*ast.Ident)` on the qualifier of a selector. -/
def parseGoTypeExpr (expr : Expr) : Outcome String :=
  match expr with
  | .Ident name => goTypeToJsType name
  | .StarExpr (.SelectorExpr (.Ident selectorType) selectField) =>
      goTypeToJsType ("*" ++ selectorType ++ "." ++ selectField)
  | .StarExpr (.SelectorExpr _ _) => .panic .typeAssertion
  | .StarExpr xv => .err (.unsupportedStarExpr xv)
  | expr => .err (.unsupportedTypeExpr (some expr))

/-! ## `Parser.ParseFuncDecl` -/

/-- Go `isExportComment`. -/
def isExportComment (comment : String) : Bool :=
  HasPrefix (TrimSpace comment) "//export "

/-- The first loop of `ParseFuncDecl`: whether some comment of the block is an
export comment. -/
def hasExportComment (docList : List Comment) : Bool :=
  docList.any (fun comment => isExportComment comment.Text)

/-- The second loop of `ParseFuncDecl`, started with the text accumulated so
far: every comment that is not an export comment and is not empty once its
leading `//` and the surrounding white space are removed is appended, followed
by a newline. -/
def documentationLoop : List Comment → String → String
  | [], documentation => documentation
  | comment :: rest, documentation =>
      if !isExportComment comment.Text then
        let trimmedComment := TrimSpace (TrimPrefix comment.Text "//")
        if trimmedComment = "" then documentationLoop rest documentation
        else documentationLoop rest (documentation ++ (trimmedComment ++ "\n"))
      else documentationLoop rest documentation

/-- The documentation of a comment block: the loop, then
`strings.TrimSuffix(documentation, "\n")`. -/
def extractDocumentation (docList : List Comment) : String :=
  TrimSuffix (documentationLoop docList "") "\n"

/-- The inner parameter loop of `ParseFuncDecl` over the names of one field:
the field's type is mapped once per name, and an error ends the extraction. -/
def parseFieldNames (fieldType : Expr) :
    List String → List ExportedFunctionParam → Outcome (List ExportedFunctionParam)
  | [], params => .ok params
  | fieldName :: rest, params =>
      match parseGoTypeExpr fieldType with
      | .ok jsParamType =>
          parseFieldNames fieldType rest (params ++ [⟨fieldName, jsParamType⟩])
      | .err e => .err e
      | .panic p => .panic p

/-- The outer parameter loop of `ParseFuncDecl` over the fields of the
parameter list; a field whose type is nil is passed over. -/
def parseParams :
    List Field → List ExportedFunctionParam → Outcome (List ExportedFunctionParam)
  | [], params => .ok params
  | fields :: rest, params =>
      match fields.Typ with
      | none => parseParams rest params
      | some fieldType =>
          match parseFieldNames fieldType fields.Names params with
          | .ok params1 => parseParams rest params1
          | .err e => .err e
          | .panic p => .panic p

/-- The return type part of `ParseFuncDecl`: nothing to do when `Results` is
nil; otherwise more than one field is an error and the type of `List[0]` is
mapped (a nil expression reaches the default arm of the type switch). -/
def parseReturnType (results : Option (List Field)) : Outcome String :=
  match results with
  | none => .ok ""
  | some list =>
      if list.length > 1 then .err .multipleReturnTypes
      else
        match list with
        | [] => .panic .indexOutOfRange
        | first :: _ =>
            match first.Typ with
            | none => .err (.unsupportedTypeExpr none)
            | some goReturnType => parseGoTypeExpr goReturnType

/-- Go `Parser.ParseFuncDecl`.  The result `ok none` is the pair `(nil, nil)`
returned for a block without export comment. -/
def ParseFuncDecl (funcDecl : FuncDecl) : Outcome (Option ExportedFunction) :=
  match funcDecl.Doc with
  | none => .panic .nilDereference
  | some docList =>
      if !hasExportComment docList then .ok none
      else
        let documentation := extractDocumentation docList
        match parseParams funcDecl.Typ.Params [] with
        | .err e => .err e
        | .panic p => .panic p
        | .ok params =>
            match parseReturnType funcDecl.Typ.Results with
            | .err e => .err e
            | .panic p => .panic p
            | .ok returnType =>
                .ok (some ⟨funcDecl.Name, params, documentation, returnType⟩)

/-! ## `Parser.Parse` -/

/-- Result of `Parser.Parse`: the slice it returns (a nil pointer is `none`),
the error of `parser.ParseFile`, the process exit of `log.Fatal`, or a panic. -/
inductive ParseResult where
  | returned (exported : List (Option ExportedFunction))
  | syntaxError (msg : String)
  | fatal (e : ParseError)
  | panic (p : Panic)
  deriving DecidableEq, Repr

/-- The callback of `ast.Inspect` applied to the declarations of the file in
order (function declarations occur only at the top level of a file): a
function declaration without doc is passed over, otherwise the result of
`ParseFuncDecl` is appended to `exported`. -/
def inspectDecls : List Decl → List (Option ExportedFunction) → ParseResult
  | [], exported => .returned exported
  | .FuncDecl node :: rest, exported =>
      match node.Doc with
      | none => inspectDecls rest exported
      | some _ =>
          match ParseFuncDecl node with
          | .ok exportedFunction => inspectDecls rest (exported ++ [exportedFunction])
          | .err e => .fatal e
          | .panic p => .panic p
  | _ :: rest, exported => inspectDecls rest exported

/-- Go `Parser.Parse`, given the result of `parser.ParseFile` on the reader. -/
def Parse (parsedFile : Except String File) : ParseResult :=
  match parsedFile with
  | .error msg => .syntaxError msg
  | .ok file => inspectDecls file.Decls []

/-! ## Package `generator`: byte strings and formatting

The emitters slice strings by byte (`s[:1]`, `s[1:]`), so their strings are
modelled as byte sequences; a string of a record is taken through its UTF-8
encoding.  `fmt.Sprintf` with the verbs `%v` and `%s` is the concatenation of
the pieces of the format with the arguments. -/

/-- Go strings of the emitters: sequences of bytes. -/
abbrev Bytes := List UInt8

/-- The bytes of a string: its UTF-8 encoding. -/
def utf8 (s : String) : Bytes :=
  s.data.flatMap String.utf8EncodeChar

/-- Go `strconv.Itoa`, which is also the `%v` format of an `int`, for a value
that is not negative (an index or a length). -/
def Itoa (i : Nat) : Bytes :=
  utf8 (toString i)

/-- Go `strings.TrimSuffix` on byte strings. -/
def TrimSuffixBytes (s suf : Bytes) : Bytes :=
  if suf.isSuffixOf s then s.take (s.length - suf.length) else s

/-- Go `strings.ToLower` applied to the one-byte string holding `b`: an ASCII
upper-case letter is lowered, any other ASCII byte is kept, and a byte that is
not ASCII is not valid UTF-8 by itself and is replaced by the encoding of
U+FFFD. -/
def ToLowerByte (b : UInt8) : Bytes :=
  if 0x41 ≤ b ∧ b ≤ 0x5A then [b + 0x20]
  else if b < 0x80 then [b]
  else [0xEF, 0xBF, 0xBD]

/-- Go `strings.ToUpper` applied to the one-byte string holding `b`. -/
def ToUpperByte (b : UInt8) : Bytes :=
  if 0x61 ≤ b ∧ b ≤ 0x7A then [b - 0x20]
  else if b < 0x80 then [b]
  else [0xEF, 0xBF, 0xBD]

/-- The error of the emitters, `errors.New("unsupported return type")`. -/
inductive GenError where
  | unsupportedReturnType
  deriving DecidableEq, Repr

/-- Outcome of a call of an emitter: a value, a non-nil `error`, or the
run-time panic of a slice expression `s[:1]` on an empty string (slice bounds
out of range). -/
inductive GenOutcome (α : Type) where
  | ok (value : α)
  | err (e : GenError)
  | sliceOutOfRange
  deriving DecidableEq, Repr

/-- Go `strings.ToLower(s[:1]) + s[1:]`. -/
def lowerFirst (s : Bytes) : GenOutcome Bytes :=
  match s with
  | [] => .sliceOutOfRange
  | b :: rest => .ok (ToLowerByte b ++ rest)

/-- Go `strings.ToUpper(s[:1]) + s[1:]`. -/
def upperFirst (s : Bytes) : GenOutcome Bytes :=
  match s with
  | [] => .sliceOutOfRange
  | b :: rest => .ok (ToUpperByte b ++ rest)

/-! ## `CppGenerator` (`generator/generator_cpp.go`) -/

def ArgPrefix : String := "go_"

def GeneratedMethodNameSuffix : String := "_Func"

structure CppGenerator where
  addonName : String
  deriving DecidableEq, Repr

/-- Go `NewCppGenerator`. -/
def NewCppGenerator (addonName : String) : CppGenerator :=
  ⟨addonName⟩

/-- The text `generateCodeForFunction` starts with: the check of the number of
arguments, formatted with `len(params)` twice. -/
def argCountCheck (n : Nat) : Bytes :=
  utf8 "\n\t\t// Check the number of arguments passed.\n\t\tif (args.Length() < " ++ Itoa n ++
    utf8 ")\n\t\t\x7b\n\t\t\t// Throw an Error that is passed back to JavaScript\n\t\t\tisolate->ThrowException(Exception::TypeError(\n\t\t\t\t\tString::NewFromUtf8(isolate,\n\t\t\t\t\t\t\t\t\t\t\t\t\t\t\t\t\"Wrong number of arguments (expected " ++
    Itoa n ++ utf8 ")\")\n\t\t\t\t\t\t.ToLocalChecked()));\n\t\t\treturn;\n\t\t\x7d\n\t"

/-- One iteration of the loop that checks the argument types: the text
appended for the parameter at index `i` (nothing for a type that is neither
`string` nor `number`). -/
def argTypeCheck (i : Nat) (param : ExportedFunctionParam) : Bytes :=
  if param.Typ = "string" then
    utf8 "\n\t\t\t\tif (!args[" ++ Itoa i ++
      utf8 "]->IsString())\n\t\t\t\t\x7b\n\t\t\t\t\tisolate->ThrowException(Exception::TypeError(\n\t\t\t\t\t\t\tString::NewFromUtf8(isolate,\n\t\t\t\t\t\t\t\t\t\t\t\t\t\t\t\t\"Wrong arguments\")\n\t\t\t\t\t\t\t\t.ToLocalChecked()));\n\t\t\t\t\treturn;\n\t\t\x7d"
  else if param.Typ = "number" then
    utf8 "\n\t\t\t\tif (!args[" ++ Itoa i ++
      utf8 "]->IsNumber())\n\t\t\t\t\x7b\n\t\t\t\t\tisolate->ThrowException(Exception::TypeError(\n\t\t\t\t\t\t\tString::NewFromUtf8(isolate,\n\t\t\t\t\t\t\t\t\t\t\t\t\t\t\t\t\"Wrong arguments\")\n\t\t\t\t\t\t\t\t.ToLocalChecked()));\n\t\t\t\t\treturn;\n\t\t\t\t\x7d"
  else []

/-- The loop of `generateCodeForFunction` that checks the argument types, from
index `i` on. -/
def argTypeCheckLoop : List ExportedFunctionParam → Nat → Bytes → Bytes
  | [], _, methodCode => methodCode
  | param :: rest, i, methodCode =>
      argTypeCheckLoop rest (i + 1) (methodCode ++ argTypeCheck i param)

/-- One iteration of the loop that moves the arguments into local variables:
the text appended for the parameter at index `i`. -/
def argConversion (i : Nat) (param : ExportedFunctionParam) : Bytes :=
  let varName := utf8 ArgPrefix ++ utf8 param.Name
  let argIndex := Itoa i
  if param.Typ = "string" then
    utf8 "\n\t\t\t\tString::Utf8Value " ++ varName ++ utf8 "_s(isolate, args[" ++ argIndex ++
      utf8 "]);\n    \t\tchar* " ++ varName ++ utf8 " = *" ++ varName ++ utf8 "_s;\n\t\t\t"
  else if param.Typ = "number" then
    utf8 "\n\t\t\t\tauto " ++ varName ++ utf8 " = args[" ++ argIndex ++
      utf8 "].As<Number>()->Value();\n\t\t\t"
  else []

/-- The loop of `generateCodeForFunction` that moves the arguments into local
variables, from index `i` on. -/
def argConversionLoop : List ExportedFunctionParam → Nat → Bytes → Bytes
  | [], _, methodCode => methodCode
  | param :: rest, i, methodCode =>
      argConversionLoop rest (i + 1) (methodCode ++ argConversion i param)

/-- The loop of `generateCodeForFunction` that builds `argsList`: every
argument name followed by a comma and a space. -/
def argsListLoop : List ExportedFunctionParam → Bytes → Bytes
  | [], argsList => argsList
  | param :: rest, argsList =>
      argsListLoop rest (argsList ++ ((utf8 ArgPrefix ++ utf8 param.Name) ++ utf8 ", "))

/-- The call of the exported function, formatted with its name and the
trimmed `argsList`. -/
def callCode (exportedFunc : ExportedFunction) : Bytes :=
  let argsList := TrimSuffixBytes (argsListLoop exportedFunc.Params []) (utf8 ", ")
  utf8 "\n\t\tauto result = " ++ utf8 exportedFunc.Name ++ utf8 "(" ++ argsList ++
    utf8 ");\n\t"

/-- The value of `methodCode` when `generateCodeForFunction` reaches the
switch on the return type. -/
def methodCodeBeforeResult (exportedFunc : ExportedFunction) : Bytes :=
  let params := exportedFunc.Params
  let methodCode : Bytes := [] ++ argCountCheck params.length
  let methodCode := argTypeCheckLoop exportedFunc.Params 0 methodCode
  let methodCode := argConversionLoop exportedFunc.Params 0 methodCode
  let methodCode := methodCode ++ utf8 "// Call the function exported from Go.\n"
  let methodCode := methodCode ++ callCode exportedFunc
  let methodCode := methodCode ++ utf8 "// Collect the result\n"
  methodCode ++ utf8 "auto nodeResult = "

/-- The end of `generateCodeForFunction`, after the switch on the return type
has appended the conversion of the result. -/
def finishMethodCode (exportedFunc : ExportedFunction) (methodCode : Bytes) : Bytes :=
  let methodCode := methodCode ++ utf8 ";\n"
  let methodCode := methodCode ++ utf8 "args.GetReturnValue().Set(nodeResult);"
  let methodName := utf8 exportedFunc.Name ++ utf8 GeneratedMethodNameSuffix
  utf8 "\n\t\tvoid " ++ methodName ++
    utf8 "(const FunctionCallbackInfo<Value> &args) \x7b\n\t\t\tIsolate *isolate = args.GetIsolate();\n\t\t\tHandleScope scope(isolate);\n\n\t\t\t" ++
    methodCode ++ utf8 "\n\t\x7d"

/-- Go `CppGenerator.generateCodeForFunction`. -/
def CppGenerator.generateCodeForFunction (_g : CppGenerator)
    (exportedFunc : ExportedFunction) : GenOutcome Bytes :=
  let methodCode := methodCodeBeforeResult exportedFunc
  if exportedFunc.ReturnType = "string" then
    .ok (finishMethodCode exportedFunc (methodCode ++
      utf8 "String::NewFromUtf8(isolate, result, NewStringType::kNormal).ToLocalChecked()"))
  else if exportedFunc.ReturnType = "number" then
    .ok (finishMethodCode exportedFunc (methodCode ++ utf8 "Number::New(isolate, result)"))
  else .err .unsupportedReturnType

/-- The first loop of `CppGenerator.Generate`: the wrapper of every function is
appended to `code`; the first error ends the generation. -/
def wrappersLoop (g : CppGenerator) : List ExportedFunction → Bytes → GenOutcome Bytes
  | [], code => .ok code
  | exportedFunc :: rest, code =>
      match g.generateCodeForFunction exportedFunc with
      | .ok wrapperCode => wrappersLoop g rest (code ++ wrapperCode)
      | .err e => .err e
      | .sliceOutOfRange => .sliceOutOfRange

/-- The `NODE_SET_METHOD` line of one function, formatted with its public name
and the name of its wrapper. -/
def registrationCode (funcJsName wrapperName : Bytes) : Bytes :=
  utf8 "\n\t\t\t\t\tNODE_SET_METHOD(exports, \"" ++ funcJsName ++ utf8 "\", " ++
    wrapperName ++ utf8 ");\n\t\t\t\t"

/-- The second loop of `CppGenerator.Generate`: one `NODE_SET_METHOD` line per
function inside `Init`. -/
def initLoop : List ExportedFunction → Bytes → GenOutcome Bytes
  | [], code => .ok code
  | exportedFunc :: rest, code =>
      match lowerFirst (utf8 exportedFunc.Name) with
      | .ok funcJsName =>
          let wrapperName := utf8 exportedFunc.Name ++ utf8 GeneratedMethodNameSuffix
          initLoop rest (code ++ registrationCode funcJsName wrapperName)
      | .err e => .err e
      | .sliceOutOfRange => .sliceOutOfRange

/-- The text `CppGenerator.Generate` starts with: the includes and the opening
of the namespace. -/
def cppPreamble (g : CppGenerator) : Bytes :=
  let code : Bytes := [] ++ (utf8 "\n\t#include \"../" ++ utf8 g.addonName ++
    utf8 ".h\"\n\t#include <node.h>\n")
  code ++ (utf8 "\n\t\tnamespace " ++ utf8 g.addonName ++
      utf8 " \x7b\n\t\t\tusing namespace v8;\n\t\t\tusing namespace node;\n\t\t")

/-- Go `CppGenerator.Generate`. -/
def CppGenerator.Generate (g : CppGenerator)
    (exportedFunctions : List ExportedFunction) : GenOutcome Bytes :=
  match wrappersLoop g exportedFunctions (cppPreamble g) with
  | .err e => .err e
  | .sliceOutOfRange => .sliceOutOfRange
  | .ok code =>
      let code := code ++ utf8 "void Init(Local<Object> exports) \x7b"
      match initLoop exportedFunctions code with
      | .err e => .err e
      | .sliceOutOfRange => .sliceOutOfRange
      | .ok code =>
          let code := code ++ utf8 "\x7d"
          let code := code ++ utf8 "NODE_MODULE(NODE_GYP_MODULE_NAME, Init)"
          .ok (code ++ utf8 "\x7d")

/-! ## `TypeScriptGenerator` (`generator/generator_typescript.go`) -/

structure TypeScriptGenerator where
  addonName : String
  deriving DecidableEq, Repr

/-- Go `NewTypeScriptGenerator`. -/
def NewTypeScriptGenerator (addonName : String) : TypeScriptGenerator :=
  ⟨addonName⟩

/-- The inner loop of `TypeScriptGenerator.Generate`: every parameter as
`name: type` followed by a comma. -/
def typescriptArgsLoop : List ExportedFunctionParam → Bytes → Bytes
  | [], typescriptArgsListStr => typescriptArgsListStr
  | param :: rest, typescriptArgsListStr =>
      typescriptArgsLoop rest (typescriptArgsListStr ++
        (utf8 param.Name ++ utf8 ": " ++ utf8 param.Typ ++ utf8 ","))

/-- The interface member of one function, formatted with its documentation,
its public name, its trimmed argument list and its return type. -/
def memberCode (exportedFunc : ExportedFunction) (funcJsName : Bytes) : Bytes :=
  let typescriptArgsListStr :=
    TrimSuffixBytes (typescriptArgsLoop exportedFunc.Params []) (utf8 ",")
  utf8 "\n\t\t/**\n\t\t" ++ utf8 exportedFunc.Doc ++ utf8 "\n\t\t**/\n\t\t\t" ++ funcJsName ++
    utf8 ": (" ++ typescriptArgsListStr ++ utf8 ") => " ++ utf8 exportedFunc.ReturnType ++
    utf8 ";\n\t\t"

/-- The outer loop of `TypeScriptGenerator.Generate`: one member per function. -/
def membersLoop : List ExportedFunction → Bytes → GenOutcome Bytes
  | [], code => .ok code
  | exportedFunc :: rest, code =>
      match lowerFirst (utf8 exportedFunc.Name) with
      | .ok funcJsName => membersLoop rest (code ++ memberCode exportedFunc funcJsName)
      | .err e => .err e
      | .sliceOutOfRange => .sliceOutOfRange

/-- Go `TypeScriptGenerator.Generate`. -/
def TypeScriptGenerator.Generate (g : TypeScriptGenerator)
    (exportedFunctions : List ExportedFunction) : GenOutcome Bytes :=
  match upperFirst (utf8 g.addonName) with
  | .err e => .err e
  | .sliceOutOfRange => .sliceOutOfRange
  | .ok addonInterfaceName =>
      let code : Bytes :=
        [] ++ (utf8 "export interface " ++ addonInterfaceName ++ utf8 " \x7b")
      match membersLoop exportedFunctions code with
      | .err e => .err e
      | .sliceOutOfRange => .sliceOutOfRange
      | .ok code =>
          let code := code ++ utf8 "\n\x7d"
          let code := code ++ (utf8 "\n\t\tconst addon: " ++ addonInterfaceName ++
            utf8 " = require(\"" ++ utf8 g.addonName ++ utf8 "\");\n\t")
          .ok (code ++ utf8 "export default addon;")

/-! ## `GoNodeGenerator` (`generator/generator.go`) -/

structure GoNodeGenerator where
  addonName : String
  outputDir : String
  cppGenerator : CppGenerator
  tsGenerator : TypeScriptGenerator
  deriving DecidableEq, Repr

/-- Go `generator.New`. -/
def GoNodeGenerator.New (addonName outputDir : String) : GoNodeGenerator :=
  ⟨addonName, outputDir, NewCppGenerator addonName, NewTypeScriptGenerator addonName⟩

structure Generation where
  CppCode : Bytes
  TypeScriptCode : Bytes
  deriving DecidableEq, Repr

/-- Go `GoNodeGenerator.Generate`. -/
def GoNodeGenerator.Generate (g : GoNodeGenerator)
    (exportedFunctions : List ExportedFunction) : GenOutcome Generation :=
  match g.cppGenerator.Generate exportedFunctions with
  | .err e => .err e
  | .sliceOutOfRange => .sliceOutOfRange
  | .ok cppCode =>
      match g.tsGenerator.Generate exportedFunctions with
      | .err e => .err e
      | .sliceOutOfRange => .sliceOutOfRange
      | .ok typeScriptCode => .ok ⟨cppCode, typeScriptCode⟩

/-! ## Package `config` (`internal/config/config.go`) -/

structure Config where
  Files : List String
  OutputDir : String
  AddonName : String
  deriving DecidableEq, Repr

/-- The mapping a YAML document decodes to, reduced to the keys named by the
tags of `Config` (`files`, `outputDirectory`, `name`); a key the document does
not have is `none`. -/
structure YamlDocument where
  files : Option (List String)
  outputDirectory : Option String
  name : Option String
  deriving DecidableEq, Repr

/-- Go `NewFromReader`, given what reading and decoding the reader gives (an
error of `io.ReadAll` or of `yaml.Unmarshal`, or the decoded document):
`var config Config` starts with every field at its zero value and
`yaml.Unmarshal` sets the fields whose keys the document has. -/
def NewFromReader (decoded : Except String YamlDocument) : Except String Config :=
  match decoded with
  | .error err => .error err
  | .ok document =>
      .ok ⟨document.files.getD [], document.outputDirectory.getD "", document.name.getD ""⟩

/-! ## Sample declarations -/

/-- The doc block of `parser_test.go`: `// Sums up two numbers`, `//`,
`//export Sum`. -/
def sumDoc : List Comment :=
  [⟨"// Sums up two numbers"⟩, ⟨"//"⟩, ⟨"//export Sum"⟩]

/-- The declaration of `parser_test.go`: `Sum(x, y float64) float64` with the
doc block `sumDoc`. -/
def sumDecl : FuncDecl :=
  ⟨some sumDoc, "Sum",
    ⟨[⟨["x", "y"], some (.Ident "float64")⟩], some [⟨[], some (.Ident "float64")⟩]⟩⟩

/-- The declaration `func helper() {}` documented by `// helper does nothing`:
a doc block without export comment. -/
def helperDecl : FuncDecl :=
  ⟨some [⟨"// helper does nothing"⟩], "helper", ⟨[], none⟩⟩

/-- The declaration `func F(uint) {}` with the block `//export F`: one unnamed
parameter of type `uint`. -/
def unnamedUintDecl : FuncDecl :=
  ⟨some [⟨"//export F"⟩], "F", ⟨[⟨[], some (.Ident "uint")⟩], none⟩⟩

/-- The declaration `func F() (a, b float64)` with the block `//export F`: one
result field carrying two names. -/
def namedPairDecl : FuncDecl :=
  ⟨some [⟨"//export F"⟩], "F", ⟨[], some [⟨["a", "b"], some (.Ident "float64")⟩]⟩⟩

/-- The declaration `func F() ()` with the block `//export F`: a result list
that is present and empty. -/
def emptyResultsDecl : FuncDecl :=
  ⟨some [⟨"//export F"⟩], "F", ⟨[], some []⟩⟩

/-- The expression `*a.b.c`: a pointer to a selector whose qualifier is the
selector `a.b`. -/
def starNestedSelector : Expr :=
  .StarExpr (.SelectorExpr (.SelectorExpr (.Ident "a") "b") "c")

/-- The expression `*C.char`. -/
def starCChar : Expr :=
  .StarExpr (.SelectorExpr (.Ident "C") "char")

/-! ## Vocabulary of the statements -/

/-- The identifiers the type mapper maps to `number`. -/
def numericGoTypes : List String :=
  ["float64", "float32", "int", "int8", "int16", "int32", "int64"]

/-- Letters of Go identifiers: ASCII letters, the underscore, and every code
point outside ASCII (standing for the Unicode letters). -/
def isLetter (c : Char) : Bool :=
  c.isAlpha || c = '_' || 0x80 ≤ c.val

/-- Go identifiers: a letter followed by letters and digits. -/
def isGoIdentifier (s : String) : Bool :=
  match s.data with
  | [] => false
  | c :: cs => isLetter c && cs.all (fun d => isLetter d || d.isDigit)

/-- Every identifier node of the expression carries a Go identifier. -/
def Expr.identsValid : Expr → Bool
  | .Ident name => isGoIdentifier name
  | .StarExpr x => x.identsValid
  | .SelectorExpr x sel => x.identsValid && isGoIdentifier sel
  | .ArrayType elt => elt.identsValid
  | .MapType key value => key.identsValid && value.identsValid
  | .Ellipsis elt => elt.identsValid
  | .ParenExpr x => x.identsValid
  | .InterfaceType => true
  | .Other _ => true

/-- The expression is a pointer to a selector whose qualifier is not an
identifier, as in `*a.b.c`. -/
def Expr.isStarOfNestedSelector : Expr → Bool
  | .StarExpr (.SelectorExpr (.Ident _) _) => false
  | .StarExpr (.SelectorExpr _ _) => true
  | _ => false


/-- The field has a type and the type mapper maps it. -/
def Field.supported (f : Field) : Bool :=
  match f.Typ with
  | some fieldType =>
      match parseGoTypeExpr fieldType with
      | .ok _ => true
      | _ => false
  | none => false

/-- The type tag the type mapper gives to the type of the field (the empty
string when the field is not supported). -/
def Field.mappedType (f : Field) : String :=
  match f.Typ with
  | some fieldType =>
      match parseGoTypeExpr fieldType with
      | .ok jsType => jsType
      | _ => ""
  | none => ""

/-- One (name, mapped type) pair per declared name of the field, in order. -/
def Field.fanOut (f : Field) : List ExportedFunctionParam :=
  f.Names.map (fun fieldName => ⟨fieldName, f.mappedType⟩)

/-- A type tag of the boundary: `string` or `number`. -/
def isBoundaryType (jsType : String) : Prop :=
  jsType = "string" ∨ jsType = "number"

/-- The text kept from one comment: a leading `//` removed, then the
surrounding white space. -/
def stripComment (text : String) : String :=
  TrimSpace (TrimPrefix text "//")

/-- The lines of the documentation: the stripped text of every comment that is
not an export comment, without those that are empty. -/
def documentationLines (docList : List Comment) : List String :=
  ((docList.filter (fun comment => !isExportComment comment.Text)).map
    (fun comment => stripComment comment.Text)).filter (fun line => decide (line ≠ ""))

/-- Every line followed by a newline. -/
def linesText : List String → String
  | [] => ""
  | line :: rest => line ++ "\n" ++ linesText rest

/-- The text of a `//` line comment: the two leading characters removed, then
the surrounding white space. -/
def stripLineComment (text : String) : String :=
  TrimSpace ⟨text.data.drop 2⟩

/-- The documentation lines of a block of `//` line comments. -/
def lineCommentLines (docList : List Comment) : List String :=
  ((docList.filter (fun comment => !isExportComment comment.Text)).map
    (fun comment => stripLineComment comment.Text)).filter (fun line => decide (line ≠ ""))

/-- Documentation read literally from the specification, one comment: the
comment syntax removed for both comment forms (`//` and `/* */`), then the
surrounding white space. -/
def specStripComment (text : String) : String :=
  if HasPrefix text "//" then TrimSpace ⟨text.data.drop 2⟩
  else if HasPrefix text "/*" && HasSuffix text "*/" then
    TrimSpace ⟨(text.data.drop 2).take (text.data.length - 4)⟩
  else TrimSpace text

/-- Documentation read literally from the specification: every comment that
is not an export comment contributes one line, blank ones included, and the
lines are joined by newline. -/
def specDocumentation (docList : List Comment) : String :=
  "\n".intercalate ((docList.filter (fun comment => !isExportComment comment.Text)).map
    (fun comment => specStripComment comment.Text))

/-- The block `// a`, `//`, `// b`, `//export F`: a blank line between two
text lines. -/
def blankLineDoc : List Comment :=
  [⟨"// a"⟩, ⟨"//"⟩, ⟨"// b"⟩, ⟨"//export F"⟩]

/-- The declaration `func F() {}` documented by `blankLineDoc`. -/
def blankLineDecl : FuncDecl :=
  ⟨some blankLineDoc, "F", ⟨[], none⟩⟩

/-- The block `/* a */`, `//export F`: a block comment above the marker. -/
def blockCommentDoc : List Comment :=
  [⟨"/* a */"⟩, ⟨"//export F"⟩]

/-- The declaration `func F() {}` documented by `blockCommentDoc`. -/
def blockCommentDecl : FuncDecl :=
  ⟨some blockCommentDoc, "F", ⟨[], none⟩⟩

/-! ## Vocabulary of the statements about the emitters -/

/-- Go `strings.Join` on byte strings. -/
def JoinBytes : List Bytes → Bytes → Bytes
  | [], _ => []
  | [elem], _ => elem
  | elem :: next :: rest, sep => elem ++ sep ++ JoinBytes (next :: rest) sep

/-- A name with its first byte lower-cased and the remainder unchanged. -/
def lowerFirstByte (s : Bytes) : Bytes :=
  match s with
  | [] => []
  | b :: rest => ToLowerByte b ++ rest

/-- A name with its first byte upper-cased and the remainder unchanged. -/
def upperFirstByte (s : Bytes) : Bytes :=
  match s with
  | [] => []
  | b :: rest => ToUpperByte b ++ rest

/-- The emitters have an emission rule for the return type of the record. -/
def supportedReturnType (f : ExportedFunction) : Prop :=
  f.ReturnType = "string" ∨ f.ReturnType = "number"

/-- The type checks of the parameters, in order, the first at index `i`. -/
def argTypeChecks : List ExportedFunctionParam → Nat → Bytes
  | [], _ => []
  | param :: rest, i => argTypeCheck i param ++ argTypeChecks rest (i + 1)

/-- The conversions of the parameters, in order, the first at index `i`. -/
def argConversions : List ExportedFunctionParam → Nat → Bytes
  | [], _ => []
  | param :: rest, i => argConversion i param ++ argConversions rest (i + 1)

/-- The conversion of the result appended by the switch on the return type. -/
def resultConversion (f : ExportedFunction) : Bytes :=
  if f.ReturnType = "string" then
    utf8 "String::NewFromUtf8(isolate, result, NewStringType::kNormal).ToLocalChecked()"
  else utf8 "Number::New(isolate, result)"

/-- The wrapper of a record whose return type is supported. -/
def wrapperCode (f : ExportedFunction) : Bytes :=
  finishMethodCode f (methodCodeBeforeResult f ++ resultConversion f)

/-- The declaration `func F(x float64) {}` with the block `//export F`: an
exported function without result. -/
def voidDecl : FuncDecl :=
  ⟨some [⟨"//export F"⟩], "F", ⟨[⟨["x"], some (.Ident "float64")⟩], none⟩⟩

/-- The record of `voidDecl`. -/
def voidRecord : ExportedFunction :=
  ⟨"F", [⟨"x", "number"⟩], "", ""⟩

/-- The record of `Greet(greeting, name *C.char) *C.char`. -/
def greetRecord : ExportedFunction :=
  ⟨"Greet", [⟨"greeting", "string"⟩, ⟨"name", "string"⟩], "", "string"⟩

/-- The record of `Sum(x, y float64) float64`. -/
def sumRecord : ExportedFunction :=
  ⟨"Sum", [⟨"x", "number"⟩, ⟨"y", "number"⟩], "Sums up two numbers", "number"⟩

/-- The native source of a sequence of records whose return types are
supported and whose names are not empty: the preamble, the wrappers, the `Init`
routine with one registration per record, the `NODE_MODULE` directive and the
end of the namespace. -/
def cppCode (g : CppGenerator) (fs : List ExportedFunction) : Bytes :=
  cppPreamble g ++ fs.flatMap wrapperCode ++ utf8 "void Init(Local<Object> exports) \x7b" ++
    fs.flatMap (fun f =>
      registrationCode (lowerFirstByte (utf8 f.Name)) (utf8 f.Name ++ utf8 "_Func")) ++
    utf8 "\x7d" ++ utf8 "NODE_MODULE(NODE_GYP_MODULE_NAME, Init)" ++ utf8 "\x7d"

/-- The declaration source of a sequence of records whose names are not empty,
for an addon name that is not empty: the interface with one member per record,
the require binding and the default export. -/
def typeScriptCode (g : TypeScriptGenerator) (fs : List ExportedFunction) : Bytes :=
  utf8 "export interface " ++ upperFirstByte (utf8 g.addonName) ++ utf8 " \x7b" ++
    fs.flatMap (fun f => memberCode f (lowerFirstByte (utf8 f.Name))) ++ utf8 "\n\x7d" ++
    (utf8 "\n\t\tconst addon: " ++ upperFirstByte (utf8 g.addonName) ++
      utf8 " = require(\"" ++ utf8 g.addonName ++ utf8 "\");\n\t") ++
    utf8 "export default addon;"

/-- The name starts with an ASCII letter. -/
def startsWithAsciiLetter (name : String) : Bool :=
  match name.data with
  | [] => false
  | c :: _ => c.isAlpha

/-- The name with its first letter lower-cased and the remainder unchanged. -/
def lowerFirstLetter (name : String) : String :=
  match name.data with
  | [] => ""
  | c :: rest => ⟨c.toLower :: rest⟩

/-- The parameters of a record as the emitter of declarations writes them:
`name: type` for each one, joined by a comma. -/
def typescriptArgs (f : ExportedFunction) : Bytes :=
  JoinBytes (f.Params.map (fun param => utf8 param.Name ++ utf8 ": " ++ utf8 param.Typ))
    (utf8 ",")

/-- The member text of a record, from its public name to its return type:
`<camelName>: (<params>) => <returnType>`. -/
def memberSignature (f : ExportedFunction) : Bytes :=
  lowerFirstByte (utf8 f.Name) ++ utf8 ": (" ++ typescriptArgs f ++ utf8 ") => " ++
    utf8 f.ReturnType

/-- The doc-comment block of a record followed by the start of its member
line: opened by `/**`, closed by `**/`, the documentation in between. -/
def docBlock (doc : String) (memberName : Bytes) : Bytes :=
  utf8 "/**\n\t\t" ++ utf8 doc ++ utf8 "\n\t\t**/\n\t\t\t" ++ memberName ++ utf8 ": ("

/-- The local variable of a parameter: `go_<paramName>`. -/
def goVar (param : ExportedFunctionParam) : Bytes :=
  utf8 "go_" ++ utf8 param.Name

/-- The head of a wrapper: its signature `void <Name>_Func(...)` and the
declarations of `isolate` and `scope`. -/
def wrapperHead (f : ExportedFunction) : Bytes :=
  utf8 "\n\t\tvoid " ++ (utf8 f.Name ++ utf8 "_Func") ++
    utf8 "(const FunctionCallbackInfo<Value> &args) \x7b\n\t\t\tIsolate *isolate = args.GetIsolate();\n\t\t\tHandleScope scope(isolate);\n\n\t\t\t"

/-- The end of a wrapper, after the call: the conversion of the result, the
setting of the return value and the closing brace. -/
def wrapperResult (f : ExportedFunction) : Bytes :=
  utf8 "// Collect the result\n" ++ utf8 "auto nodeResult = " ++ resultConversion f ++
    utf8 ";\n" ++ utf8 "args.GetReturnValue().Set(nodeResult);" ++ utf8 "\n\t\x7d"

/-- The call of the exported function as the claim words it:
`auto result = <Name>(<args>)`, the arguments joined by a comma and a space. -/
def callText (f : ExportedFunction) : Bytes :=
  utf8 "auto result = " ++ utf8 f.Name ++ utf8 "(" ++
    JoinBytes (f.Params.map goVar) (utf8 ", ") ++ utf8 ")"

/-! ## The type mapper: auxiliary facts -/

theorem goTypeToJsType_number_iff (s : String) :
    goTypeToJsType s = .ok "number" ↔ s ∈ numericGoTypes := by
  unfold goTypeToJsType
  by_cases h : s = "*C.char"
  · subst h
    simp only [if_true]
    constructor
    · intro h1; exact absurd h1 (by decide)
    · intro h1; exact absurd h1 (by decide)
  · rw [if_neg h]
    simp only [numericGoTypes, List.mem_cons, List.mem_singleton, List.not_mem_nil, or_false]
    split_ifs with h1
    · exact ⟨fun _ => h1, fun _ => rfl⟩
    · constructor
      · intro h2; cases h2
      · intro h2; exact absurd h2 h1

theorem goTypeToJsType_string_iff (s : String) :
    goTypeToJsType s = .ok "string" ↔ s = "*C.char" := by
  unfold goTypeToJsType
  by_cases h : s = "*C.char"
  · simp [h]
  · rw [if_neg h]
    split_ifs with h1
    · constructor
      · intro h2; exact absurd h2 (by decide)
      · intro h2; exact absurd h2 h
    · constructor
      · intro h2; cases h2
      · intro h2; exact absurd h2 h

theorem goTypeToJsType_cases (s : String) :
    goTypeToJsType s = .ok "string" ∨ goTypeToJsType s = .ok "number" ∨
      goTypeToJsType s = .err (.unsupportedType s) := by
  unfold goTypeToJsType
  split_ifs
  · exact Or.inl rfl
  · exact Or.inr (Or.inl rfl)
  · exact Or.inr (Or.inr rfl)

theorem star_selector_text (q f : String) :
    ("*" ++ q ++ "." ++ f).data = '*' :: (q.data ++ '.' :: f.data) := by
  simp [String.data_append]

theorem star_selector_eq_cchar (q f : String) (h : "*" ++ q ++ "." ++ f = "*C.char") :
    q = "C" ∧ f = "char" := by
  have h1 := congrArg String.data h
  rw [star_selector_text] at h1
  have h2 : q.data ++ '.' :: f.data = ['C', '.', 'c', 'h', 'a', 'r'] := by
    simpa using h1
  rcases q with ⟨_ | ⟨c, _ | ⟨c2, cs⟩⟩⟩
  · simp at h2
  · simp at h2
    obtain ⟨rfl, h3⟩ := h2
    refine ⟨rfl, ?_⟩
    apply String.ext
    simpa using h3
  · simp at h2
    obtain ⟨-, -, h3⟩ := h2
    have h4 : '.' ∈ ['c', 'h', 'a', 'r'] := by
      rw [← h3]; simp
    simp at h4

theorem star_selector_not_numeric (q f : String) :
    "*" ++ q ++ "." ++ f ∉ numericGoTypes := by
  intro h
  have key : ∀ t ∈ numericGoTypes, t.data.head? ≠ some '*' := by decide
  exact key _ h (by rw [star_selector_text]; rfl)

theorem isGoIdentifier_ne_cchar (name : String) (h : isGoIdentifier name = true) :
    name ≠ "*C.char" := by
  intro heq
  subst heq
  revert h
  decide

/-- The type mapper never aborts on an expression that is not a pointer to a
selector with a non-identifier qualifier. -/
theorem parseGoTypeExpr_cases (e : Expr) (hq : e.isStarOfNestedSelector = false) :
    parseGoTypeExpr e = .ok "string" ∨ parseGoTypeExpr e = .ok "number" ∨
      ∃ err, parseGoTypeExpr e = .err err ∧ err.isUnsupportedType = true := by
  have hg : ∀ s, goTypeToJsType s = .ok "string" ∨ goTypeToJsType s = .ok "number" ∨
      ∃ err, goTypeToJsType s = .err err ∧ err.isUnsupportedType = true := by
    intro s
    rcases goTypeToJsType_cases s with h | h | h
    · exact Or.inl h
    · exact Or.inr (Or.inl h)
    · exact Or.inr (Or.inr ⟨_, h, rfl⟩)
  cases e with
  | Ident name => exact hg name
  | StarExpr x =>
    cases x with
    | SelectorExpr q sel =>
      cases q with
      | Ident qname => exact hg _
      | _ => simp [Expr.isStarOfNestedSelector] at hq
    | _ => exact Or.inr (Or.inr ⟨_, rfl, rfl⟩)
  | _ => exact Or.inr (Or.inr ⟨_, rfl, rfl⟩)

/-! ## Claims about `Parser.Parse` and the type mapper -/

/-- C1 (the code departs from the claim): a function declaration whose doc
block has no export comment makes `Parser.Parse` append a nil entry; for the
file holding only `helperDecl`, which has no qualifying declaration, the
returned slice is not empty but holds one nil pointer. -/
theorem C1_parse_appends_nil_entry :
    hasExportComment [⟨"// helper does nothing"⟩] = false ∧
      Parse (.ok ⟨[.FuncDecl helperDecl]⟩) = .returned [none] := by
  decide

/-- C2 (the code departs from the claim): the unsupported type `uint` of an
unnamed parameter is never mapped; `ParseFuncDecl` returns a record without
parameters and no error for `func F(uint)`. -/
theorem C2_unnamed_parameter_type_unchecked :
    parseGoTypeExpr (.Ident "uint") = .err (.unsupportedType "uint") ∧
      ParseFuncDecl unnamedUintDecl = .ok (some ⟨"F", [], "", ""⟩) := by
  decide

/-- C3 (the code departs from the claim): two results declared by one field,
`(a, b float64)`, are not rejected; `ParseFuncDecl` returns a record whose
single return type is `number`. -/
theorem C3_named_result_pair_accepted :
    ParseFuncDecl namedPairDecl = .ok (some ⟨"F", [], "", "number"⟩) := by
  decide

/-- C4: for every type expression as `go/parser` builds it (its identifiers
are Go identifiers and, when it is a pointer to a selector, the qualifier of
the selector is an identifier), the type mapper returns `number` exactly for
the bare identifiers float64, float32, int, int8, int16, int32, int64, returns
`string` exactly for `*C.char`, and returns an unsupported-type error for
every other expression. -/
theorem C4_type_mapper_table (e : Expr) (hid : e.identsValid = true)
    (hq : e.isStarOfNestedSelector = false) :
    (parseGoTypeExpr e = .ok "number" ↔ ∃ name, name ∈ numericGoTypes ∧ e = .Ident name) ∧
      (parseGoTypeExpr e = .ok "string" ↔ e = starCChar) ∧
      ((¬ ∃ name, name ∈ numericGoTypes ∧ e = .Ident name) → e ≠ starCChar →
        ∃ err, parseGoTypeExpr e = .err err ∧ err.isUnsupportedType = true) := by
  have hnum : parseGoTypeExpr e = .ok "number" ↔
      ∃ name, name ∈ numericGoTypes ∧ e = .Ident name := by
    cases e with
    | Ident name =>
      show goTypeToJsType name = _ ↔ _
      rw [goTypeToJsType_number_iff]
      constructor
      · intro h; exact ⟨name, h, rfl⟩
      · rintro ⟨n, hn, h⟩
        cases h
        exact hn
    | StarExpr x =>
      constructor
      · intro h
        cases x with
        | SelectorExpr q sel =>
          cases q with
          | Ident qname =>
            exact absurd ((goTypeToJsType_number_iff _).1 h) (star_selector_not_numeric _ _)
          | _ => simp [Expr.isStarOfNestedSelector] at hq
        | _ => cases h
      · rintro ⟨n, -, h⟩
        cases h
    | _ =>
      constructor
      · intro h; cases h
      · rintro ⟨n, -, h⟩
        cases h
  have hstr : parseGoTypeExpr e = .ok "string" ↔ e = starCChar := by
    cases e with
    | Ident name =>
      show goTypeToJsType name = _ ↔ _
      rw [goTypeToJsType_string_iff]
      constructor
      · intro h
        exact absurd h (isGoIdentifier_ne_cchar name hid)
      · intro h; cases h
    | StarExpr x =>
      constructor
      · intro h
        cases x with
        | SelectorExpr q sel =>
          cases q with
          | Ident qname =>
            obtain ⟨rfl, rfl⟩ := star_selector_eq_cchar _ _ ((goTypeToJsType_string_iff _).1 h)
            rfl
          | _ => simp [Expr.isStarOfNestedSelector] at hq
        | _ => cases h
      · intro h
        rw [h]
        decide
    | _ =>
      constructor
      · intro h; cases h
      · intro h; cases h
  refine ⟨hnum, hstr, ?_⟩
  intro h1 h2
  rcases parseGoTypeExpr_cases e hq with h | h | h
  · exact absurd (hstr.1 h) h2
  · exact absurd (hnum.1 h) h1
  · exact h

/-- C4 (witness): the table at the slice type `[]int`. -/
theorem C4_type_mapper_table_witness :
    (parseGoTypeExpr (.ArrayType (.Ident "int")) = .ok "number" ↔
        ∃ name, name ∈ numericGoTypes ∧ Expr.ArrayType (.Ident "int") = .Ident name) ∧
      (parseGoTypeExpr (.ArrayType (.Ident "int")) = .ok "string" ↔
        Expr.ArrayType (.Ident "int") = starCChar) ∧
      ((¬ ∃ name, name ∈ numericGoTypes ∧ Expr.ArrayType (.Ident "int") = .Ident name) →
        Expr.ArrayType (.Ident "int") ≠ starCChar →
        ∃ err, parseGoTypeExpr (.ArrayType (.Ident "int")) = .err err ∧
          err.isUnsupportedType = true) :=
  C4_type_mapper_table (.ArrayType (.Ident "int")) (by decide) (by decide)

/-- A tree that `go/parser` does not build: on a hand-made pointer to a
selector whose qualifier is itself a selector, the unchecked assertion
`xv.X.(*ast.Ident)` of `parseGoTypeExpr` fails. -/
theorem parseGoTypeExpr_hand_made_nested_selector :
    parseGoTypeExpr starNestedSelector = .panic .typeAssertion := by
  decide

/-- C5: for every type expression as `go/parser` builds it (when it is a
pointer to a selector, the qualifier of the selector is an identifier), be it
an identifier, a pointer to any operand or any other expression kind,
`parseGoTypeExpr` returns either a boundary type tag, `string` or `number`, or
an unsupported-type error, and it never aborts on the type assertion; each arm
of its type switches is shown on one expression (`float64`, `uint`, `*C.char`,
`*C.int`, `*int`, `[]int`).  A source text that is no type, such as `*a.b.c`,
is a syntax error of `go/parser`, which `Parse` returns before any type is
mapped. -/
theorem C5_type_mapper_total (e : Expr) (hq : e.isStarOfNestedSelector = false) :
    (parseGoTypeExpr e = .ok "string" ∨ parseGoTypeExpr e = .ok "number" ∨
        ∃ err, parseGoTypeExpr e = .err err ∧ err.isUnsupportedType = true) ∧
      (∀ p, parseGoTypeExpr e ≠ .panic p) ∧
      parseGoTypeExpr (.Ident "float64") = .ok "number" ∧
      parseGoTypeExpr (.Ident "uint") = .err (.unsupportedType "uint") ∧
      parseGoTypeExpr (.StarExpr (.SelectorExpr (.Ident "C") "char")) = .ok "string" ∧
      parseGoTypeExpr (.StarExpr (.SelectorExpr (.Ident "C") "int")) =
        .err (.unsupportedType "*C.int") ∧
      parseGoTypeExpr (.StarExpr (.Ident "int")) = .err (.unsupportedStarExpr (.Ident "int")) ∧
      parseGoTypeExpr (.ArrayType (.Ident "int")) =
        .err (.unsupportedTypeExpr (some (.ArrayType (.Ident "int")))) ∧
      (∀ msg, Parse (.error msg) = .syntaxError msg) := by
  have h := parseGoTypeExpr_cases e hq
  refine ⟨h, ?_, by decide, by decide, by decide, by decide, by decide, by decide,
    fun _ => rfl⟩
  intro p hp
  rcases h with h | h | ⟨err, h, -⟩ <;>
  · rw [hp] at h
    cases h

/-- C5 (witness): the mapper on the pointer `*C.int`. -/
theorem C5_type_mapper_total_witness :
    (parseGoTypeExpr (.StarExpr (.SelectorExpr (.Ident "C") "int")) = .ok "string" ∨
        parseGoTypeExpr (.StarExpr (.SelectorExpr (.Ident "C") "int")) = .ok "number" ∨
        ∃ err, parseGoTypeExpr (.StarExpr (.SelectorExpr (.Ident "C") "int")) = .err err ∧
          err.isUnsupportedType = true) ∧
      (∀ p, parseGoTypeExpr (.StarExpr (.SelectorExpr (.Ident "C") "int")) ≠ .panic p) ∧
      parseGoTypeExpr (.Ident "float64") = .ok "number" ∧
      parseGoTypeExpr (.Ident "uint") = .err (.unsupportedType "uint") ∧
      parseGoTypeExpr (.StarExpr (.SelectorExpr (.Ident "C") "char")) = .ok "string" ∧
      parseGoTypeExpr (.StarExpr (.SelectorExpr (.Ident "C") "int")) =
        .err (.unsupportedType "*C.int") ∧
      parseGoTypeExpr (.StarExpr (.Ident "int")) = .err (.unsupportedStarExpr (.Ident "int")) ∧
      parseGoTypeExpr (.ArrayType (.Ident "int")) =
        .err (.unsupportedTypeExpr (some (.ArrayType (.Ident "int")))) ∧
      (∀ msg, Parse (.error msg) = .syntaxError msg) :=
  C5_type_mapper_total (.StarExpr (.SelectorExpr (.Ident "C") "int")) (by decide)

/-- C6 (the code departs from the claim): for `func F() ()` the result list is
present and empty, `Results.List[0]` is out of range and `ParseFuncDecl`
aborts with a panic instead of returning a record without return type. -/
theorem C6_empty_result_list_panics :
    hasExportComment [⟨"//export F"⟩] = true ∧
      ParseFuncDecl emptyResultsDecl = .panic .indexOutOfRange := by
  decide


/-! ## Parameters and return type: auxiliary facts -/

theorem parseGoTypeExpr_ok_tag (e : Expr) (jsType : String)
    (h : parseGoTypeExpr e = .ok jsType) : isBoundaryType jsType := by
  have hg : ∀ s, goTypeToJsType s = .ok jsType → isBoundaryType jsType := by
    intro s hs
    rcases goTypeToJsType_cases s with h1 | h1 | h1
    · rw [h1] at hs; cases hs; exact Or.inl rfl
    · rw [h1] at hs; cases hs; exact Or.inr rfl
    · rw [h1] at hs; cases hs
  cases e with
  | Ident name => exact hg name h
  | StarExpr x =>
    cases x with
    | SelectorExpr q sel =>
      cases q with
      | Ident qname => exact hg _ h
      | _ => cases h
    | _ => cases h
  | _ => cases h

theorem parseFieldNames_ok (fieldType : Expr) (jsType : String)
    (h : parseGoTypeExpr fieldType = .ok jsType) (names : List String) :
    ∀ params, parseFieldNames fieldType names params =
      .ok (params ++ names.map (fun fieldName => ⟨fieldName, jsType⟩)) := by
  induction names with
  | nil => intro params; simp [parseFieldNames]
  | cons fieldName rest ih =>
    intro params
    simp only [parseFieldNames, h, ih, List.map_cons, List.append_assoc, List.singleton_append]

theorem Field.supported_iff (f : Field) :
    f.supported = true ↔ ∃ fieldType jsType, f.Typ = some fieldType ∧
      parseGoTypeExpr fieldType = .ok jsType := by
  unfold Field.supported
  constructor
  · intro h
    split at h
    · next fieldType hty =>
      split at h
      · next jsType hjs => exact ⟨fieldType, jsType, hty, hjs⟩
      · cases h
    · cases h
  · rintro ⟨fieldType, jsType, hty, hjs⟩
    simp [hty, hjs]

theorem parseParams_ok (fields : List Field) (h : ∀ f ∈ fields, f.supported = true) :
    ∀ params, parseParams fields params = .ok (params ++ fields.flatMap Field.fanOut) := by
  induction fields with
  | nil => intro params; simp [parseParams]
  | cons f rest ih =>
    intro params
    obtain ⟨fieldType, jsType, hty, hjs⟩ := (Field.supported_iff f).1 (h f (List.mem_cons_self _ _))
    have hrest : ∀ g ∈ rest, g.supported = true := fun g hg => h g (List.mem_cons_of_mem _ hg)
    have hfan : f.fanOut = f.Names.map (fun fieldName => ⟨fieldName, jsType⟩) := by
      simp [Field.fanOut, Field.mappedType, hty, hjs]
    simp only [parseParams, hty, parseFieldNames_ok fieldType jsType hjs, ih hrest,
      List.flatMap_cons, hfan, List.append_assoc]

theorem parseFieldNames_tags (fieldType : Expr) (names : List String) :
    ∀ params result, (∀ p ∈ params, isBoundaryType p.Typ) →
      parseFieldNames fieldType names params = .ok result →
      ∀ p ∈ result, isBoundaryType p.Typ := by
  induction names with
  | nil =>
    intro params result hp h
    simp only [parseFieldNames] at h
    cases h
    exact hp
  | cons fieldName rest ih =>
    intro params result hp h
    simp only [parseFieldNames] at h
    split at h
    · next jsParamType hjs =>
      refine ih _ result ?_ h
      intro p hmem
      rcases List.mem_append.1 hmem with h1 | h1
      · exact hp p h1
      · rw [List.mem_singleton] at h1
        subst h1
        exact parseGoTypeExpr_ok_tag fieldType jsParamType hjs
    · cases h
    · cases h

theorem parseParams_tags (fields : List Field) :
    ∀ params result, (∀ p ∈ params, isBoundaryType p.Typ) →
      parseParams fields params = .ok result →
      ∀ p ∈ result, isBoundaryType p.Typ := by
  induction fields with
  | nil =>
    intro params result hp h
    simp only [parseParams] at h
    cases h
    exact hp
  | cons f rest ih =>
    intro params result hp h
    simp only [parseParams] at h
    split at h
    · exact ih params result hp h
    · next fieldType hty =>
      split at h
      · next params1 h1 =>
        exact ih params1 result (parseFieldNames_tags fieldType f.Names params params1 hp h1) h
      · cases h
      · cases h

theorem parseReturnType_tag (results : Option (List Field)) (returnType : String)
    (h : parseReturnType results = .ok returnType) :
    returnType = "" ∨ isBoundaryType returnType := by
  unfold parseReturnType at h
  split at h
  · cases h; exact Or.inl rfl
  · split at h
    · cases h
    · split at h
      · cases h
      · split at h
        · cases h
        · next goReturnType _ => exact Or.inr (parseGoTypeExpr_ok_tag goReturnType returnType h)

/-- The record of a successful extraction, field by field. -/
theorem ParseFuncDecl_ok_iff (d : FuncDecl) (r : ExportedFunction) :
    ParseFuncDecl d = .ok (some r) ↔ ∃ docList, d.Doc = some docList ∧
      hasExportComment docList = true ∧ r.Name = d.Name ∧
      parseParams d.Typ.Params [] = .ok r.Params ∧
      r.Doc = extractDocumentation docList ∧
      parseReturnType d.Typ.Results = .ok r.ReturnType := by
  unfold ParseFuncDecl
  constructor
  · intro h
    split at h
    · cases h
    · next docList hdoc =>
      by_cases hexp : hasExportComment docList = true
      · simp only [hexp, Bool.not_true, Bool.false_eq_true, if_false] at h
        split at h
        · cases h
        · cases h
        · next params hps =>
          split at h
          · cases h
          · cases h
          · next returnType hrt =>
            cases h
            exact ⟨docList, hdoc, hexp, rfl, hps, rfl, hrt⟩
      · simp only [hexp, Bool.not_false, if_true] at h
        cases h
  · rintro ⟨docList, hdoc, hexp, hname, hps, hdocu, hrt⟩
    obtain ⟨name, params, doc, returnType⟩ := r
    simp only at hname hps hdocu hrt
    subst hname hdocu
    simp [hdoc, hexp, hps, hrt]


/-! ## Claims about the parameters and the type tags of a record -/

/-- C7: for a qualifying declaration whose parameter fields all have a
supported type, every record `ParseFuncDecl` returns has as parameter list the
concatenation, in parameter-list order, of one (name, mapped type) pair per
declared name of each field, the names of a group sharing the mapped type of
the group; the parameter names are the declared names in source order and
their number is the total number of declared names.  Such a record is returned
whenever the declaration has no result or one result field of a supported
type; for `Sum(x, y float64) float64` the list is [(x, number), (y, number)]. -/
theorem C7_parameters_fan_out (d : FuncDecl) (docList : List Comment)
    (hdoc : d.Doc = some docList) (hexp : hasExportComment docList = true)
    (hparams : ∀ f ∈ d.Typ.Params, f.supported = true) :
    (∀ r, ParseFuncDecl d = .ok (some r) →
        r.Params = d.Typ.Params.flatMap Field.fanOut ∧
        r.Params.map (fun p => p.Name) = d.Typ.Params.flatMap (fun f => f.Names) ∧
        r.Params.length = (d.Typ.Params.map (fun f => f.Names.length)).sum) ∧
      ((d.Typ.Results = none ∨ ∃ f, d.Typ.Results = some [f] ∧ f.supported = true) →
        ∃ r, ParseFuncDecl d = .ok (some r)) ∧
      (∃ r, ParseFuncDecl sumDecl = .ok (some r) ∧
        r.Params = [⟨"x", "number"⟩, ⟨"y", "number"⟩]) := by
  have hps : parseParams d.Typ.Params [] = .ok (d.Typ.Params.flatMap Field.fanOut) := by
    rw [parseParams_ok d.Typ.Params hparams []]
    simp
  refine ⟨?_, ?_, ⟨⟨"Sum", [⟨"x", "number"⟩, ⟨"y", "number"⟩], "Sums up two numbers",
    "number"⟩, by decide, rfl⟩⟩
  · intro r hr
    obtain ⟨docList1, -, -, -, hps1, -, -⟩ := (ParseFuncDecl_ok_iff d r).1 hr
    rw [hps] at hps1
    have hr1 : r.Params = d.Typ.Params.flatMap Field.fanOut :=
      (Outcome.ok.inj hps1).symm
    refine ⟨hr1, ?_, ?_⟩
    · rw [hr1]
      generalize d.Typ.Params = fields
      induction fields with
      | nil => simp
      | cons f rest ih =>
        simp only [List.flatMap_cons, List.map_append, ih]
        simp [Field.fanOut, Function.comp_def]
    · rw [hr1]
      generalize d.Typ.Params = fields
      induction fields with
      | nil => simp
      | cons f rest ih =>
        simp only [List.flatMap_cons, List.length_append, ih, List.map_cons, List.sum_cons]
        simp [Field.fanOut]
  · intro hret
    have hrt : ∃ returnType, parseReturnType d.Typ.Results = .ok returnType := by
      rcases hret with h | ⟨f, h, hf⟩
      · exact ⟨"", by rw [h]; rfl⟩
      · obtain ⟨fieldType, jsType, hty, hjs⟩ := (Field.supported_iff f).1 hf
        exact ⟨jsType, by rw [h]; simp [parseReturnType, hty, hjs]⟩
    obtain ⟨returnType, hrt⟩ := hrt
    exact ⟨⟨d.Name, d.Typ.Params.flatMap Field.fanOut, extractDocumentation docList, returnType⟩,
      (ParseFuncDecl_ok_iff d _).2 ⟨docList, hdoc, hexp, rfl, hps, rfl, hrt⟩⟩

/-- C7 (witness): the statement at `Sum(x, y float64) float64`. -/
theorem C7_parameters_fan_out_witness :
    (∀ r, ParseFuncDecl sumDecl = .ok (some r) →
        r.Params = sumDecl.Typ.Params.flatMap Field.fanOut ∧
        r.Params.map (fun p => p.Name) = sumDecl.Typ.Params.flatMap (fun f => f.Names) ∧
        r.Params.length = (sumDecl.Typ.Params.map (fun f => f.Names.length)).sum) ∧
      ((sumDecl.Typ.Results = none ∨
          ∃ f, sumDecl.Typ.Results = some [f] ∧ f.supported = true) →
        ∃ r, ParseFuncDecl sumDecl = .ok (some r)) ∧
      (∃ r, ParseFuncDecl sumDecl = .ok (some r) ∧
        r.Params = [⟨"x", "number"⟩, ⟨"y", "number"⟩]) :=
  C7_parameters_fan_out sumDecl sumDoc rfl (by decide) (by decide)

/-- C10: every record that `ParseFuncDecl` returns without error has every
parameter type equal to `string` or `number` and a return type equal to
`string`, `number` or the empty string. -/
theorem C10_record_type_tags (d : FuncDecl) (r : ExportedFunction)
    (h : ParseFuncDecl d = .ok (some r)) :
    (∀ p ∈ r.Params, p.Typ = "string" ∨ p.Typ = "number") ∧
      (r.ReturnType = "string" ∨ r.ReturnType = "number" ∨ r.ReturnType = "") := by
  obtain ⟨docList, -, -, -, hps, -, hrt⟩ := (ParseFuncDecl_ok_iff d r).1 h
  refine ⟨?_, ?_⟩
  · exact parseParams_tags d.Typ.Params [] r.Params (fun p hp => absurd hp (List.not_mem_nil p)) hps
  · rcases parseReturnType_tag d.Typ.Results r.ReturnType hrt with h1 | h1 | h1
    · exact Or.inr (Or.inr h1)
    · exact Or.inl h1
    · exact Or.inr (Or.inl h1)

/-- C10 (witness): the type tags of the record of `Sum(x, y float64) float64`. -/
theorem C10_record_type_tags_witness :
    ParseFuncDecl sumDecl = .ok (some ⟨"Sum", [⟨"x", "number"⟩, ⟨"y", "number"⟩],
        "Sums up two numbers", "number"⟩) ∧
      (∀ p ∈ [(⟨"x", "number"⟩ : ExportedFunctionParam), ⟨"y", "number"⟩],
        p.Typ = "string" ∨ p.Typ = "number") ∧
      (("number" : String) = "string" ∨ ("number" : String) = "number" ∨
        ("number" : String) = "") :=
  ⟨by decide, C10_record_type_tags sumDecl
    ⟨"Sum", [⟨"x", "number"⟩, ⟨"y", "number"⟩], "Sums up two numbers", "number"⟩ (by decide)⟩


/-! ## Documentation: auxiliary facts -/

theorem documentationLoop_eq (docList : List Comment) :
    ∀ documentation, documentationLoop docList documentation =
      documentation ++ linesText (documentationLines docList) := by
  induction docList with
  | nil => intro documentation; simp [documentationLoop, documentationLines, linesText]
  | cons comment rest ih =>
    intro documentation
    unfold documentationLoop
    by_cases hexp : isExportComment comment.Text = true
    · simp only [hexp, Bool.not_true, Bool.false_eq_true, if_false, ih]
      simp [documentationLines, hexp]
    · have hexp1 : isExportComment comment.Text = false := by simpa using hexp
      simp only [hexp1, Bool.not_false, if_true]
      by_cases hempty : TrimSpace (TrimPrefix comment.Text "//") = ""
      · simp only [hempty, if_true, ih]
        simp [documentationLines, hexp1, stripComment, hempty]
      · simp only [hempty, if_false, ih]
        have hl : documentationLines (comment :: rest) =
            TrimSpace (TrimPrefix comment.Text "//") :: documentationLines rest := by
          simp [documentationLines, hexp1, stripComment, hempty]
        rw [hl, linesText, String.append_assoc, String.append_assoc]

theorem intercalate_go_data (sep : String) (lines : List String) :
    ∀ acc, (String.intercalate.go acc sep lines).data =
      acc.data ++ lines.flatMap (fun line => sep.data ++ line.data) := by
  induction lines with
  | nil => intro acc; simp [String.intercalate.go]
  | cons line rest ih =>
    intro acc
    simp [String.intercalate.go, ih, String.data_append]

theorem linesText_data (lines : List String) :
    (linesText lines).data = lines.flatMap (fun line => line.data ++ ['\n']) := by
  induction lines with
  | nil => rfl
  | cons line rest ih =>
    simp only [linesText, String.data_append, ih, List.flatMap_cons]

theorem linesText_cons_data (line : String) (rest : List String) :
    (linesText (line :: rest)).data = ("\n".intercalate (line :: rest)).data ++ ['\n'] := by
  rw [String.intercalate, intercalate_go_data, linesText_data]
  simp only [List.flatMap_cons, List.append_assoc]
  congr 1
  induction rest with
  | nil => rfl
  | cons line1 rest1 ih =>
    simp only [List.flatMap_cons, List.append_assoc, ← ih]

theorem trimSuffix_linesText (lines : List String) :
    TrimSuffix (linesText lines) "\n" = "\n".intercalate lines := by
  cases lines with
  | nil => decide
  | cons line rest =>
    have h := linesText_cons_data line rest
    apply String.ext
    unfold TrimSuffix HasSuffix
    rw [h]
    have hs : ("\n" : String).data = ['\n'] := rfl
    rw [hs]
    have h1 : (['\n'] : List Char).isSuffixOf (("\n".intercalate (line :: rest)).data ++ ['\n']) = true := by
      rw [List.isSuffixOf_iff_suffix]
      exact List.suffix_append _ _
    rw [if_pos h1]
    simp

theorem extractDocumentation_eq (docList : List Comment) :
    extractDocumentation docList = "\n".intercalate (documentationLines docList) := by
  unfold extractDocumentation
  rw [documentationLoop_eq]
  have : ("" : String) ++ linesText (documentationLines docList) = linesText (documentationLines docList) := by
    apply String.ext; simp [String.data_append]
  rw [this, trimSuffix_linesText]

theorem trimSpace_data (s : String) :
    (TrimSpace s).data = (s.data.dropWhile isSpace).rdropWhile isSpace := rfl

theorem trimSpace_head_not_space (s : String) (c : Char) (cs : List Char)
    (h : (TrimSpace s).data = c :: cs) : isSpace c = false := by
  rw [trimSpace_data] at h
  obtain ⟨t, ht⟩ := List.rdropWhile_prefix isSpace (l := s.data.dropWhile isSpace)
  rw [h] at ht
  have hne : s.data.dropWhile isSpace ≠ [] := by
    rw [← ht]; simp
  have hhead := List.head_dropWhile_not isSpace s.data hne
  have hc : (s.data.dropWhile isSpace).head hne = c := by
    simp [← ht]
  rw [hc] at hhead
  exact hhead

theorem trimSpace_last_not_space (s : String) (cs : List Char) (c : Char)
    (h : (TrimSpace s).data = cs ++ [c]) : isSpace c = false := by
  rw [trimSpace_data] at h
  have hne : (s.data.dropWhile isSpace).rdropWhile isSpace ≠ [] := by
    rw [h]; simp
  have hlast := List.rdropWhile_last_not isSpace (s.data.dropWhile isSpace) hne
  have hc : ((s.data.dropWhile isSpace).rdropWhile isSpace).getLast hne = c := by
    simp [h]
  rw [hc] at hlast
  simpa using hlast

theorem documentationLines_mem (docList : List Comment) (line : String)
    (h : line ∈ documentationLines docList) : line ≠ "" ∧ ∃ s, line = TrimSpace s := by
  unfold documentationLines at h
  rw [List.mem_filter, List.mem_map] at h
  obtain ⟨⟨comment, -, hc⟩, hne⟩ := h
  exact ⟨by simpa using hne, _, hc.symm⟩

theorem string_data_ne_nil (s : String) (h : s ≠ "") : s.data ≠ [] := by
  intro h1
  exact h (String.ext h1)

theorem intercalate_no_leading_newline (lines : List String)
    (h : ∀ line ∈ lines, line ≠ "" ∧ ∃ s, line = TrimSpace s) :
    HasPrefix ("\n".intercalate lines) "\n" = false := by
  cases lines with
  | nil => decide
  | cons line rest =>
    obtain ⟨hne, s, hs⟩ := h line (List.mem_cons_self _ _)
    unfold HasPrefix
    rw [String.intercalate, intercalate_go_data]
    obtain ⟨c, cs, hc⟩ := List.exists_cons_of_ne_nil (string_data_ne_nil line hne)
    have hsp : isSpace c = false := trimSpace_head_not_space s c cs (by rw [← hs, hc])
    rw [hc]
    have hcn : c ≠ '\n' := by
      intro h1; rw [h1] at hsp; exact absurd hsp (by decide)
    have hs1 : ("\n" : String).data = ['\n'] := rfl
    simp [hs1, List.isPrefixOf, Ne.symm hcn]

theorem intercalate_last_line (lines : List String) (hne : lines ≠ []) :
    ∃ p z, z ∈ lines ∧ ("\n".intercalate lines).data = p ++ z.data := by
  cases lines with
  | nil => exact absurd rfl hne
  | cons line rest =>
    rw [String.intercalate, intercalate_go_data]
    rcases List.eq_nil_or_concat rest with h | ⟨init, z, h⟩
    · subst h
      exact ⟨[], line, List.mem_cons_self _ _, by simp⟩
    · subst h
      refine ⟨line.data ++ init.flatMap (fun l => ("\n" : String).data ++ l.data) ++
        ("\n" : String).data, z, by simp, ?_⟩
      simp [List.flatMap_append]

theorem intercalate_no_trailing_newline (lines : List String)
    (h : ∀ line ∈ lines, line ≠ "" ∧ ∃ s, line = TrimSpace s) :
    HasSuffix ("\n".intercalate lines) "\n" = false := by
  cases hl : lines with
  | nil => decide
  | cons line rest =>
    rw [← hl]
    obtain ⟨p, z, hz, hdata⟩ := intercalate_last_line lines (by rw [hl]; simp)
    obtain ⟨hne, s, hs⟩ := h z hz
    rcases List.eq_nil_or_concat z.data with h1 | ⟨cs, c, hc⟩
    · exact absurd h1 (string_data_ne_nil z hne)
    · rw [List.concat_eq_append] at hc
      have hsp : isSpace c = false := trimSpace_last_not_space s cs c (by rw [← hs, hc])
      have hcn : c ≠ '\n' := by
        intro h1; rw [h1] at hsp; exact absurd hsp (by decide)
      unfold HasSuffix
      rw [hdata, hc]
      have hs1 : ("\n" : String).data = ['\n'] := rfl
      rw [hs1]
      apply Bool.eq_false_iff.2
      intro hsuf
      rw [List.isSuffixOf_iff_suffix] at hsuf
      obtain ⟨t, ht⟩ := hsuf
      have h2 := congrArg List.getLast? ht
      rw [← List.append_assoc] at h2
      simp at h2
      exact hcn h2.symm

theorem documentationLines_of_line_comments (docList : List Comment)
    (hline : ∀ comment ∈ docList, HasPrefix comment.Text "//" = true) :
    documentationLines docList = lineCommentLines docList := by
  unfold documentationLines lineCommentLines
  congr 1
  apply List.map_congr_left
  intro comment hmem
  have h1 := hline comment (List.mem_of_mem_filter hmem)
  unfold stripComment stripLineComment TrimPrefix
  rw [if_pos h1]
  rfl

theorem documentationLines_all_markers (docList : List Comment)
    (h : ∀ comment ∈ docList, isExportComment comment.Text = true) :
    documentationLines docList = [] := by
  unfold documentationLines
  have : docList.filter (fun comment => !isExportComment comment.Text) = [] := by
    rw [List.filter_eq_nil_iff]
    intro comment hmem
    simp [h comment hmem]
  rw [this]
  rfl

/-! ## Claims about the documentation of a record -/

/-- C8: for a qualifying declaration whose doc block consists of `//` line
comments and whose signature is accepted, the record's Doc is the non-marker
comment lines, each with its leading `//` removed and the surrounding white
space trimmed, without the lines that are empty after trimming, joined by a
single newline; it neither starts nor ends with a newline; it is empty when
every line is a marker line, and the record is returned all the same; for the
block `// Sums up two numbers`, `//`, `//export Sum` it is exactly
`Sums up two numbers`. -/
theorem C8_line_comment_documentation (d : FuncDecl) (docList : List Comment)
    (params : List ExportedFunctionParam) (returnType : String)
    (hdoc : d.Doc = some docList) (hexp : hasExportComment docList = true)
    (hline : ∀ comment ∈ docList, HasPrefix comment.Text "//" = true)
    (hps : parseParams d.Typ.Params [] = .ok params)
    (hrt : parseReturnType d.Typ.Results = .ok returnType) :
    ParseFuncDecl d = .ok (some ⟨d.Name, params,
        "\n".intercalate (lineCommentLines docList), returnType⟩) ∧
      HasPrefix ("\n".intercalate (lineCommentLines docList)) "\n" = false ∧
      HasSuffix ("\n".intercalate (lineCommentLines docList)) "\n" = false ∧
      ((∀ comment ∈ docList, isExportComment comment.Text = true) →
        ParseFuncDecl d = .ok (some ⟨d.Name, params, "", returnType⟩)) ∧
      extractDocumentation sumDoc = "Sums up two numbers" := by
  have hlines := documentationLines_of_line_comments docList hline
  have hdocu : extractDocumentation docList = "\n".intercalate (lineCommentLines docList) := by
    rw [extractDocumentation_eq, hlines]
  have hmem := documentationLines_mem docList
  rw [hlines] at hmem
  refine ⟨?_, intercalate_no_leading_newline _ hmem, intercalate_no_trailing_newline _ hmem,
    ?_, by decide⟩
  · exact (ParseFuncDecl_ok_iff d _).2 ⟨docList, hdoc, hexp, rfl, hps, hdocu.symm, hrt⟩
  · intro hall
    refine (ParseFuncDecl_ok_iff d _).2 ⟨docList, hdoc, hexp, rfl, hps, ?_, hrt⟩
    rw [extractDocumentation_eq, documentationLines_all_markers docList hall]
    rfl

/-- C8 (witness): the statement at the declaration of `parser_test.go`. -/
theorem C8_line_comment_documentation_witness :
    ParseFuncDecl sumDecl = .ok (some ⟨sumDecl.Name, [⟨"x", "number"⟩, ⟨"y", "number"⟩],
        "\n".intercalate (lineCommentLines sumDoc), "number"⟩) ∧
      HasPrefix ("\n".intercalate (lineCommentLines sumDoc)) "\n" = false ∧
      HasSuffix ("\n".intercalate (lineCommentLines sumDoc)) "\n" = false ∧
      ((∀ comment ∈ sumDoc, isExportComment comment.Text = true) →
        ParseFuncDecl sumDecl = .ok (some ⟨sumDecl.Name, [⟨"x", "number"⟩, ⟨"y", "number"⟩],
          "", "number"⟩)) ∧
      extractDocumentation sumDoc = "Sums up two numbers" :=
  C8_line_comment_documentation sumDecl sumDoc [⟨"x", "number"⟩, ⟨"y", "number"⟩] "number"
    rfl (by decide) (by decide) (by decide) (by decide)

/-- C9 (counterexample): for the block `// a`, `//`, `// b`, `//export F` the
record's Doc is `a`, newline, `b`, without the empty line the claim keeps; for
the block `/* a */`, `//export F` it is `/* a */`, with the delimiters the
claim strips. -/
theorem C9_blank_dropped_delimiters_kept :
    (∃ r, ParseFuncDecl blankLineDecl = .ok (some r) ∧ r.Doc = "a\nb" ∧
        specDocumentation blankLineDoc = "a\n\nb" ∧ r.Doc ≠ specDocumentation blankLineDoc) ∧
      (∃ r, ParseFuncDecl blockCommentDecl = .ok (some r) ∧ r.Doc = "/* a */" ∧
        specDocumentation blockCommentDoc = "a" ∧ r.Doc ≠ specDocumentation blockCommentDoc) := by
  refine ⟨⟨⟨"F", [], "a\nb", ""⟩, ?_, rfl, ?_, ?_⟩, ⟨⟨"F", [], "/* a */", ""⟩, ?_, rfl, ?_, ?_⟩⟩ <;>
    decide

/-- C9 (amended): for a qualifying declaration whose signature is accepted,
the record's Doc is obtained by taking every comment of the block that is not
an export marker, removing a leading `//` and then the surrounding white space
(a comment that does not start with `//`, such as a block comment, keeps its
whole text, delimiters included), leaving out the comments that are empty
after that, and joining the remaining ones by newline with no trailing
newline. -/
theorem C9_documentation_lines (d : FuncDecl) (docList : List Comment)
    (params : List ExportedFunctionParam) (returnType : String)
    (hdoc : d.Doc = some docList) (hexp : hasExportComment docList = true)
    (hps : parseParams d.Typ.Params [] = .ok params)
    (hrt : parseReturnType d.Typ.Results = .ok returnType) :
    ParseFuncDecl d = .ok (some ⟨d.Name, params,
        "\n".intercalate (documentationLines docList), returnType⟩) ∧
      HasSuffix ("\n".intercalate (documentationLines docList)) "\n" = false ∧
      (∀ text, HasPrefix text "//" = false → stripComment text = TrimSpace text) := by
  refine ⟨?_, intercalate_no_trailing_newline _ (documentationLines_mem docList), ?_⟩
  · exact (ParseFuncDecl_ok_iff d _).2
      ⟨docList, hdoc, hexp, rfl, hps, (extractDocumentation_eq docList).symm, hrt⟩
  · intro text htext
    unfold stripComment TrimPrefix
    rw [htext]
    rfl

/-- C9 (witness): the amended statement at the block `/* a */`, `//export F`. -/
theorem C9_documentation_lines_witness :
    ParseFuncDecl blockCommentDecl = .ok (some ⟨blockCommentDecl.Name, [],
        "\n".intercalate (documentationLines blockCommentDoc), ""⟩) ∧
      HasSuffix ("\n".intercalate (documentationLines blockCommentDoc)) "\n" = false ∧
      (∀ text, HasPrefix text "//" = false → stripComment text = TrimSpace text) :=
  C9_documentation_lines blockCommentDecl blockCommentDoc [] "" rfl (by decide) (by decide)
    (by decide)


/-! ## The emitters: auxiliary facts -/

set_option maxRecDepth 100000

theorem utf8EncodeChar_ne_nil (c : Char) : String.utf8EncodeChar c ≠ [] := by
  unfold String.utf8EncodeChar
  simp only
  split_ifs <;> simp

theorem utf8_ne_nil (s : String) (h : s ≠ "") : utf8 s ≠ [] := by
  obtain ⟨c, cs, hc⟩ := List.exists_cons_of_ne_nil (string_data_ne_nil s h)
  unfold utf8
  rw [hc, List.flatMap_cons]
  intro h1
  exact utf8EncodeChar_ne_nil c (List.append_eq_nil.1 h1).1

theorem lowerFirst_ok (s : Bytes) (h : s ≠ []) : lowerFirst s = .ok (lowerFirstByte s) := by
  cases s with
  | nil => exact absurd rfl h
  | cons b rest => rfl

theorem upperFirst_ok (s : Bytes) (h : s ≠ []) : upperFirst s = .ok (upperFirstByte s) := by
  cases s with
  | nil => exact absurd rfl h
  | cons b rest => rfl

theorem argTypeCheckLoop_eq (params : List ExportedFunctionParam) :
    ∀ i methodCode, argTypeCheckLoop params i methodCode =
      methodCode ++ argTypeChecks params i := by
  induction params with
  | nil => intro i methodCode; simp [argTypeCheckLoop, argTypeChecks]
  | cons param rest ih =>
    intro i methodCode
    simp [argTypeCheckLoop, argTypeChecks, ih, List.append_assoc]

theorem argConversionLoop_eq (params : List ExportedFunctionParam) :
    ∀ i methodCode, argConversionLoop params i methodCode =
      methodCode ++ argConversions params i := by
  induction params with
  | nil => intro i methodCode; simp [argConversionLoop, argConversions]
  | cons param rest ih =>
    intro i methodCode
    simp [argConversionLoop, argConversions, ih, List.append_assoc]

theorem argsListLoop_eq (params : List ExportedFunctionParam) :
    ∀ argsList, argsListLoop params argsList =
      argsList ++ params.flatMap (fun param => (utf8 "go_" ++ utf8 param.Name) ++ utf8 ", ") := by
  induction params with
  | nil => intro argsList; simp [argsListLoop]
  | cons param rest ih =>
    intro argsList
    simp [argsListLoop, ih, List.append_assoc, ArgPrefix]

theorem typescriptArgsLoop_eq (params : List ExportedFunctionParam) :
    ∀ acc, typescriptArgsLoop params acc =
      acc ++ params.flatMap
        (fun param => (utf8 param.Name ++ utf8 ": " ++ utf8 param.Typ) ++ utf8 ",") := by
  induction params with
  | nil => intro acc; simp [typescriptArgsLoop]
  | cons param rest ih =>
    intro acc
    simp [typescriptArgsLoop, ih, List.append_assoc]

theorem flatMap_sep_eq_join (elems : List Bytes) (sep : Bytes) (h : elems ≠ []) :
    elems.flatMap (fun elem => elem ++ sep) = JoinBytes elems sep ++ sep := by
  induction elems with
  | nil => exact absurd rfl h
  | cons elem rest ih =>
    cases rest with
    | nil => simp [JoinBytes]
    | cons next rest1 =>
      rw [List.flatMap_cons, ih (by simp)]
      simp [JoinBytes, List.append_assoc]

theorem trimSuffix_flatMap_sep (elems : List Bytes) (sep : Bytes) (hsep : sep ≠ []) :
    TrimSuffixBytes (elems.flatMap (fun elem => elem ++ sep)) sep = JoinBytes elems sep := by
  cases elems with
  | nil =>
    have hnot : sep.isSuffixOf ([] : Bytes) = false := by
      cases sep with
      | nil => exact absurd rfl hsep
      | cons b bs => simp
    simp [TrimSuffixBytes, hnot, JoinBytes]
  | cons elem rest =>
    rw [flatMap_sep_eq_join (elem :: rest) sep (by simp)]
    have hsuf : sep.isSuffixOf (JoinBytes (elem :: rest) sep ++ sep) = true := by
      rw [List.isSuffixOf_iff_suffix]
      exact List.suffix_append _ _
    simp [TrimSuffixBytes, hsuf]

theorem generateCodeForFunction_ok (g : CppGenerator) (f : ExportedFunction)
    (h : supportedReturnType f) : g.generateCodeForFunction f = .ok (wrapperCode f) := by
  unfold CppGenerator.generateCodeForFunction wrapperCode resultConversion
  rcases h with h | h
  · simp [h]
  · have hne : f.ReturnType ≠ "string" := by rw [h]; decide
    simp [h, hne]

theorem generateCodeForFunction_err (g : CppGenerator) (f : ExportedFunction)
    (h : ¬ supportedReturnType f) :
    g.generateCodeForFunction f = .err .unsupportedReturnType := by
  unfold CppGenerator.generateCodeForFunction
  have h1 : f.ReturnType ≠ "string" := fun h1 => h (Or.inl h1)
  have h2 : f.ReturnType ≠ "number" := fun h2 => h (Or.inr h2)
  simp [h1, h2]

theorem wrappersLoop_ok (g : CppGenerator) (fs : List ExportedFunction)
    (h : ∀ f ∈ fs, supportedReturnType f) :
    ∀ code, wrappersLoop g fs code = .ok (code ++ fs.flatMap wrapperCode) := by
  induction fs with
  | nil => intro code; simp [wrappersLoop]
  | cons f rest ih =>
    intro code
    have hrest : ∀ f1 ∈ rest, supportedReturnType f1 :=
      fun f1 h1 => h f1 (List.mem_cons_of_mem _ h1)
    simp only [wrappersLoop, generateCodeForFunction_ok g f (h f (List.mem_cons_self _ _)),
      ih hrest, List.flatMap_cons, List.append_assoc]

theorem wrappersLoop_err (g : CppGenerator) (fs : List ExportedFunction)
    (h : ∃ f ∈ fs, ¬ supportedReturnType f) :
    ∀ code, wrappersLoop g fs code = .err .unsupportedReturnType := by
  induction fs with
  | nil =>
    obtain ⟨f, hf, -⟩ := h
    exact absurd hf (List.not_mem_nil f)
  | cons f rest ih =>
    intro code
    by_cases hf : supportedReturnType f
    · have hrest : ∃ f1 ∈ rest, ¬ supportedReturnType f1 := by
        obtain ⟨f1, hmem, hbad⟩ := h
        rcases List.mem_cons.1 hmem with h1 | h1
        · subst h1; exact absurd hf hbad
        · exact ⟨f1, h1, hbad⟩
      simp only [wrappersLoop, generateCodeForFunction_ok g f hf, ih hrest]
    · simp only [wrappersLoop, generateCodeForFunction_err g f hf]

theorem initLoop_ok (fs : List ExportedFunction) (h : ∀ f ∈ fs, f.Name ≠ "") :
    ∀ code, initLoop fs code = .ok (code ++ fs.flatMap (fun f =>
      registrationCode (lowerFirstByte (utf8 f.Name)) (utf8 f.Name ++ utf8 "_Func"))) := by
  induction fs with
  | nil => intro code; simp [initLoop]
  | cons f rest ih =>
    intro code
    have hrest : ∀ f1 ∈ rest, f1.Name ≠ "" := fun f1 h1 => h f1 (List.mem_cons_of_mem _ h1)
    have hf := lowerFirst_ok (utf8 f.Name) (utf8_ne_nil f.Name (h f (List.mem_cons_self _ _)))
    simp only [initLoop, hf, ih hrest, List.flatMap_cons, List.append_assoc,
      GeneratedMethodNameSuffix]

theorem membersLoop_ok (fs : List ExportedFunction) (h : ∀ f ∈ fs, f.Name ≠ "") :
    ∀ code, membersLoop fs code = .ok (code ++ fs.flatMap (fun f =>
      memberCode f (lowerFirstByte (utf8 f.Name)))) := by
  induction fs with
  | nil => intro code; simp [membersLoop]
  | cons f rest ih =>
    intro code
    have hrest : ∀ f1 ∈ rest, f1.Name ≠ "" := fun f1 h1 => h f1 (List.mem_cons_of_mem _ h1)
    have hf := lowerFirst_ok (utf8 f.Name) (utf8_ne_nil f.Name (h f (List.mem_cons_self _ _)))
    simp only [membersLoop, hf, ih hrest, List.flatMap_cons, List.append_assoc]


theorem cppGenerate_ok (g : CppGenerator) (fs : List ExportedFunction)
    (hret : ∀ f ∈ fs, supportedReturnType f) (hnames : ∀ f ∈ fs, f.Name ≠ "") :
    g.Generate fs = .ok (cppCode g fs) := by
  unfold CppGenerator.Generate cppCode
  simp only [wrappersLoop_ok g fs hret, initLoop_ok fs hnames, List.append_assoc]

theorem cppGenerate_err (g : CppGenerator) (fs : List ExportedFunction)
    (h : ∃ f ∈ fs, ¬ supportedReturnType f) :
    g.Generate fs = .err .unsupportedReturnType := by
  unfold CppGenerator.Generate
  simp only [wrappersLoop_err g fs h]

theorem tsGenerate_ok (g : TypeScriptGenerator) (fs : List ExportedFunction)
    (haddon : g.addonName ≠ "") (hnames : ∀ f ∈ fs, f.Name ≠ "") :
    g.Generate fs = .ok (typeScriptCode g fs) := by
  unfold TypeScriptGenerator.Generate typeScriptCode
  simp only [upperFirst_ok (utf8 g.addonName) (utf8_ne_nil g.addonName haddon),
    membersLoop_ok fs hnames, List.append_assoc, List.nil_append]

/-! ## Claims about the failures of the emitters -/

/-- C11 (counterexample): the declaration `func F(x float64)` marked
`//export F` is extracted into a record with a supported parameter type and an
absent return type, and `CppGenerator.Generate` fails on that record with the
unsupported-return-type error instead of emitting a wrapper. -/
theorem C11_extracted_void_record_rejected :
    ParseFuncDecl voidDecl = .ok (some voidRecord) ∧ voidRecord.ReturnType = "" ∧
      (NewCppGenerator "addon").generateCodeForFunction voidRecord =
        .err .unsupportedReturnType ∧
      (NewCppGenerator "addon").Generate [voidRecord] = .err .unsupportedReturnType := by
  refine ⟨by decide, rfl, by decide, by decide⟩

/-- C11 (amended): for every IR record whose return type is absent,
`generateCodeForFunction` returns the unsupported-return-type error and no
wrapper, whatever the parameters, and `CppGenerator.Generate` returns that
error and no output for every sequence holding such a record. -/
theorem C11_absent_return_type_rejected (g : CppGenerator) (fs : List ExportedFunction)
    (f : ExportedFunction) (hf : f ∈ fs) (habsent : f.ReturnType = "") :
    g.generateCodeForFunction f = .err .unsupportedReturnType ∧
      g.Generate fs = .err .unsupportedReturnType := by
  have hbad : ¬ supportedReturnType f := by
    unfold supportedReturnType
    rw [habsent]
    decide
  exact ⟨generateCodeForFunction_err g f hbad, cppGenerate_err g fs ⟨f, hf, hbad⟩⟩

/-- C11 (witness): the amended statement at the record of `func F(x float64)`. -/
theorem C11_absent_return_type_rejected_witness :
    (NewCppGenerator "addon").generateCodeForFunction voidRecord =
        .err .unsupportedReturnType ∧
      (NewCppGenerator "addon").Generate [voidRecord] = .err .unsupportedReturnType :=
  C11_absent_return_type_rejected (NewCppGenerator "addon") [voidRecord] voidRecord
    (List.mem_cons_self _ _) rfl

/-- C12: for every IR sequence with non-empty function names and every
non-empty addon name, `GoNodeGenerator.Generate` returns an error exactly when
some record has a return type that is neither `string` nor `number`, whatever
the types of the parameters; with an error there is no Generation, and without
such a record it returns the Generation made of the two emitters' outputs. -/
theorem C12_generate_error_iff (addonName outputDir : String) (fs : List ExportedFunction)
    (haddon : addonName ≠ "") (hnames : ∀ f ∈ fs, f.Name ≠ "") :
    ((∃ e, (GoNodeGenerator.New addonName outputDir).Generate fs = .err e) ↔
        ∃ f ∈ fs, f.ReturnType ≠ "string" ∧ f.ReturnType ≠ "number") ∧
      ((∃ e, (GoNodeGenerator.New addonName outputDir).Generate fs = .err e) →
        ¬ ∃ generation, (GoNodeGenerator.New addonName outputDir).Generate fs =
          .ok generation) ∧
      ((¬ ∃ f ∈ fs, f.ReturnType ≠ "string" ∧ f.ReturnType ≠ "number") →
        (GoNodeGenerator.New addonName outputDir).Generate fs =
          .ok ⟨cppCode (NewCppGenerator addonName) fs,
            typeScriptCode (NewTypeScriptGenerator addonName) fs⟩) := by
  have hok : (∀ f ∈ fs, supportedReturnType f) →
      (GoNodeGenerator.New addonName outputDir).Generate fs =
        .ok ⟨cppCode (NewCppGenerator addonName) fs,
          typeScriptCode (NewTypeScriptGenerator addonName) fs⟩ := by
    intro hret
    unfold GoNodeGenerator.Generate GoNodeGenerator.New
    simp only [cppGenerate_ok (NewCppGenerator addonName) fs hret hnames,
      tsGenerate_ok (NewTypeScriptGenerator addonName) fs haddon hnames]
  have herr : (∃ f ∈ fs, ¬ supportedReturnType f) →
      (GoNodeGenerator.New addonName outputDir).Generate fs = .err .unsupportedReturnType := by
    intro hbad
    unfold GoNodeGenerator.Generate GoNodeGenerator.New
    simp only [cppGenerate_err (NewCppGenerator addonName) fs hbad]
  have hiff : (∃ f ∈ fs, f.ReturnType ≠ "string" ∧ f.ReturnType ≠ "number") ↔
      ∃ f ∈ fs, ¬ supportedReturnType f := by
    simp only [supportedReturnType, not_or]
  refine ⟨⟨?_, ?_⟩, ?_, ?_⟩
  · rintro ⟨e, he⟩
    by_contra hno
    have hall : ∀ f ∈ fs, supportedReturnType f := by
      intro f hf
      by_contra hbad
      exact hno (hiff.2 ⟨f, hf, hbad⟩)
    rw [hok hall] at he
    cases he
  · intro hbad
    exact ⟨_, herr (hiff.1 hbad)⟩
  · rintro ⟨e, he⟩ ⟨generation, hgen⟩
    rw [he] at hgen
    cases hgen
  · intro hno
    apply hok
    intro f hf
    by_contra hbad
    exact hno (hiff.2 ⟨f, hf, hbad⟩)

/-- C12 (witness): the statement at the record of `Sum` and the addon name
`calculator`. -/
theorem C12_generate_error_iff_witness :
    ((∃ e, (GoNodeGenerator.New "calculator" "out").Generate [sumRecord] = .err e) ↔
        ∃ f ∈ [sumRecord], f.ReturnType ≠ "string" ∧ f.ReturnType ≠ "number") ∧
      ((∃ e, (GoNodeGenerator.New "calculator" "out").Generate [sumRecord] = .err e) →
        ¬ ∃ generation, (GoNodeGenerator.New "calculator" "out").Generate [sumRecord] =
          .ok generation) ∧
      ((¬ ∃ f ∈ [sumRecord], f.ReturnType ≠ "string" ∧ f.ReturnType ≠ "number") →
        (GoNodeGenerator.New "calculator" "out").Generate [sumRecord] =
          .ok ⟨cppCode (NewCppGenerator "calculator") [sumRecord],
            typeScriptCode (NewTypeScriptGenerator "calculator") [sumRecord]⟩) :=
  C12_generate_error_iff "calculator" "out" [sumRecord] (by decide) (by decide)


/-! ## Names that start with an ASCII letter: auxiliary facts -/

theorem ascii_letter_table : ∀ n, n < 128 → (Char.ofNat n).isAlpha = true →
    String.utf8EncodeChar (Char.ofNat n) = [(Char.ofNat n).val.toUInt8] ∧
      ToLowerByte (Char.ofNat n).val.toUInt8 =
        String.utf8EncodeChar (Char.ofNat n).toLower := by
  decide

theorem isAlpha_lt (c : Char) (h : c.isAlpha = true) : c.toNat < 128 := by
  simp only [Char.isAlpha, Char.isUpper, Char.isLower, Bool.or_eq_true, Bool.and_eq_true,
    decide_eq_true_eq] at h
  rcases h with ⟨_, h2⟩ | ⟨_, h2⟩
  · have h3 : c.toNat ≤ 90 := h2
    omega
  · have h3 : c.toNat ≤ 122 := h2
    omega

theorem ascii_letter_bytes (c : Char) (h : c.isAlpha = true) :
    String.utf8EncodeChar c = [c.val.toUInt8] ∧
      ToLowerByte c.val.toUInt8 = String.utf8EncodeChar c.toLower := by
  have hc : Char.ofNat c.toNat = c := Char.ofNat_toNat c
  have key := ascii_letter_table c.toNat (isAlpha_lt c h) (by rw [hc]; exact h)
  rw [hc] at key
  exact key

theorem lowerFirstByte_of_letter (name : String) (h : startsWithAsciiLetter name = true) :
    lowerFirstByte (utf8 name) = utf8 (lowerFirstLetter name) := by
  unfold startsWithAsciiLetter at h
  unfold lowerFirstLetter utf8
  cases hd : name.data with
  | nil => rw [hd] at h; cases h
  | cons c rest =>
    rw [hd] at h
    obtain ⟨h1, h2⟩ := ascii_letter_bytes c h
    simp only [List.flatMap_cons, h1, List.singleton_append, lowerFirstByte, h2]

theorem startsWithAsciiLetter_ne_empty (name : String)
    (h : startsWithAsciiLetter name = true) : name ≠ "" := by
  intro hn
  subst hn
  cases h

/-! ## Claims about the declaration emitter -/

theorem infix_flatMap_of_mem {α : Type} (l : List α) (a : α) (body : α → Bytes)
    (h : a ∈ l) : body a <:+: l.flatMap body := by
  obtain ⟨s, t, rfl⟩ := List.append_of_mem h
  exact ⟨s.flatMap body, t.flatMap body, by simp [List.flatMap_append]⟩

theorem infix_append_left (a b c : Bytes) (h : a <:+: b) : a <:+: b ++ c := by
  obtain ⟨s, t, rfl⟩ := h
  exact ⟨s, t ++ c, by simp [List.append_assoc]⟩

theorem infix_append_right (a b c : Bytes) (h : a <:+: c) : a <:+: b ++ c := by
  obtain ⟨s, t, rfl⟩ := h
  exact ⟨b ++ s, t, by simp [List.append_assoc]⟩

theorem memberCode_eq (f : ExportedFunction) (funcJsName : Bytes) :
    memberCode f funcJsName =
      utf8 "\n\t\t/**\n\t\t" ++ utf8 f.Doc ++ utf8 "\n\t\t**/\n\t\t\t" ++ funcJsName ++
        utf8 ": (" ++ typescriptArgs f ++ utf8 ") => " ++ utf8 f.ReturnType ++
        utf8 ";\n\t\t" := by
  have hargs : TrimSuffixBytes (typescriptArgsLoop f.Params []) (utf8 ",") =
      typescriptArgs f := by
    rw [typescriptArgsLoop_eq, List.nil_append, typescriptArgs,
      ← trimSuffix_flatMap_sep _ (utf8 ",") (by decide), List.flatMap_map]
  unfold memberCode
  simp only [hargs]

theorem memberCode_within_output (g : TypeScriptGenerator) (fs : List ExportedFunction)
    (f : ExportedFunction) (hf : f ∈ fs) :
    memberCode f (lowerFirstByte (utf8 f.Name)) <:+: typeScriptCode g fs := by
  unfold typeScriptCode
  apply infix_append_left
  apply infix_append_left
  apply infix_append_left
  apply infix_append_right
  exact infix_flatMap_of_mem fs f (fun f => memberCode f (lowerFirstByte (utf8 f.Name))) hf

theorem memberSignature_within_member (f : ExportedFunction) :
    memberSignature f <:+: memberCode f (lowerFirstByte (utf8 f.Name)) := by
  rw [memberCode_eq]
  exact ⟨utf8 "\n\t\t/**\n\t\t" ++ utf8 f.Doc ++ utf8 "\n\t\t**/\n\t\t\t", utf8 ";\n\t\t",
    by simp [memberSignature, List.append_assoc]⟩

theorem docBlock_within_member (f : ExportedFunction) :
    docBlock f.Doc (lowerFirstByte (utf8 f.Name)) <:+:
      memberCode f (lowerFirstByte (utf8 f.Name)) := by
  rw [memberCode_eq]
  have hsplit : utf8 "\n\t\t/**\n\t\t" = utf8 "\n\t\t" ++ utf8 "/**\n\t\t" := by decide
  exact ⟨utf8 "\n\t\t",
    typescriptArgs f ++ utf8 ") => " ++ utf8 f.ReturnType ++ utf8 ";\n\t\t",
    by simp [docBlock, hsplit, List.append_assoc]⟩

/-- C14 (counterexample): the TypeScript output for the record
`Sum(x, y float64) float64` does not contain the text
`sum: (x: number, y: number) => number`. -/
theorem C14_no_space_after_comma :
    ∃ out, (NewTypeScriptGenerator "calculator").Generate [sumRecord] = .ok out ∧
      ¬ utf8 "sum: (x: number, y: number) => number" <:+: out := by
  refine ⟨typeScriptCode (NewTypeScriptGenerator "calculator") [sumRecord],
    tsGenerate_ok _ _ (by decide) (by decide), ?_⟩
  decide

/-- C14 (amended): for every IR sequence with non-empty names, every non-empty
addon name and every record of the sequence, the TypeScript output contains
the member text `<camelName>: (<params>) => <returnType>` where `<params>` is
the `name: type` pairs of the record's parameters in order, joined by a comma
without space; for the record of `Sum` the output contains the text
`sum: (x: number,y: number) => number`. -/
theorem C14_member_signature (addonName : String) (fs : List ExportedFunction)
    (f : ExportedFunction) (haddon : addonName ≠ "") (hnames : ∀ f1 ∈ fs, f1.Name ≠ "")
    (hf : f ∈ fs) :
    (∃ out, (NewTypeScriptGenerator addonName).Generate fs = .ok out ∧
        memberSignature f <:+: out) ∧
      (∃ out, (NewTypeScriptGenerator "calculator").Generate [sumRecord] = .ok out ∧
        utf8 "sum: (x: number,y: number) => number" <:+: out) := by
  refine ⟨⟨_, tsGenerate_ok (NewTypeScriptGenerator addonName) fs haddon hnames, ?_⟩,
    ⟨typeScriptCode (NewTypeScriptGenerator "calculator") [sumRecord],
      tsGenerate_ok _ _ (by decide) (by decide), ?_⟩⟩
  · exact (memberSignature_within_member f).trans (memberCode_within_output _ fs f hf)
  · decide

/-- C14 (witness): the amended statement at the record of `Sum`. -/
theorem C14_member_signature_witness :
    (∃ out, (NewTypeScriptGenerator "calculator").Generate [sumRecord] = .ok out ∧
        memberSignature sumRecord <:+: out) ∧
      (∃ out, (NewTypeScriptGenerator "calculator").Generate [sumRecord] = .ok out ∧
        utf8 "sum: (x: number,y: number) => number" <:+: out) :=
  C14_member_signature "calculator" [sumRecord] sumRecord (by decide) (by decide)
    (List.mem_cons_self _ _)

/-- C15 (counterexample): the TypeScript output for the record of
`func F(x float64)`, whose return type is absent, contains the member
`f: (x: number) => ;` with nothing between the arrow and the semicolon, and
does not contain the text `void`. -/
theorem C15_empty_return_type_rendered :
    ∃ out, (NewTypeScriptGenerator "calculator").Generate [voidRecord] = .ok out ∧
      utf8 "f: (x: number) => ;" <:+: out ∧ ¬ utf8 "void" <:+: out := by
  refine ⟨typeScriptCode (NewTypeScriptGenerator "calculator") [voidRecord],
    tsGenerate_ok _ _ (by decide) (by decide), ?_, ?_⟩ <;> decide

/-- C15 (amended): for every IR record whose return type is absent (in a
sequence with non-empty names, for a non-empty addon name), the member emitted
by `TypeScriptGenerator.Generate` renders the return type as it is, empty: the
arrow `=>` is followed by a space and the closing semicolon. -/
theorem C15_absent_return_type_rendered_empty (addonName : String)
    (fs : List ExportedFunction) (f : ExportedFunction) (haddon : addonName ≠ "")
    (hnames : ∀ f1 ∈ fs, f1.Name ≠ "") (hf : f ∈ fs) (habsent : f.ReturnType = "") :
    ∃ out, (NewTypeScriptGenerator addonName).Generate fs = .ok out ∧
      (lowerFirstByte (utf8 f.Name) ++ utf8 ": (" ++ typescriptArgs f ++ utf8 ") => ;")
        <:+: out := by
  refine ⟨_, tsGenerate_ok (NewTypeScriptGenerator addonName) fs haddon hnames, ?_⟩
  refine List.IsInfix.trans ?_ (memberCode_within_output _ fs f hf)
  rw [memberCode_eq, habsent]
  have hsplit : utf8 ") => ;" = utf8 ") => " ++ utf8 "" ++ utf8 ";" := by decide
  have htail : utf8 ";\n\t\t" = utf8 ";" ++ utf8 "\n\t\t" := by decide
  exact ⟨utf8 "\n\t\t/**\n\t\t" ++ utf8 f.Doc ++ utf8 "\n\t\t**/\n\t\t\t", utf8 "\n\t\t",
    by simp [hsplit, htail, List.append_assoc]⟩

/-- C15 (witness): the amended statement at the record of `func F(x float64)`. -/
theorem C15_absent_return_type_rendered_empty_witness :
    ∃ out, (NewTypeScriptGenerator "calculator").Generate [voidRecord] = .ok out ∧
      (lowerFirstByte (utf8 voidRecord.Name) ++ utf8 ": (" ++ typescriptArgs voidRecord ++
        utf8 ") => ;") <:+: out :=
  C15_absent_return_type_rendered_empty "calculator" [voidRecord] voidRecord (by decide)
    (by decide) (List.mem_cons_self _ _) rfl

/-- C16: for every IR sequence with non-empty names, every non-empty addon
name and every record of the sequence, the TypeScript output contains the
record's Doc byte for byte inside a doc-comment block opened by `/**` and
closed by `**/` that immediately precedes the record's member line; for the
record extracted from a declaration, the text in that block is the extracted
documentation. -/
theorem C16_documentation_round_trip (addonName : String) (fs : List ExportedFunction)
    (f : ExportedFunction) (haddon : addonName ≠ "") (hnames : ∀ f1 ∈ fs, f1.Name ≠ "")
    (hf : f ∈ fs) :
    (∃ out, (NewTypeScriptGenerator addonName).Generate fs = .ok out ∧
        docBlock f.Doc (lowerFirstByte (utf8 f.Name)) <:+: out) ∧
      (∀ d docList, d.Doc = some docList → ParseFuncDecl d = .ok (some f) →
        ∃ out, (NewTypeScriptGenerator addonName).Generate fs = .ok out ∧
          docBlock (extractDocumentation docList) (lowerFirstByte (utf8 d.Name)) <:+: out) := by
  have hmain : docBlock f.Doc (lowerFirstByte (utf8 f.Name)) <:+:
      typeScriptCode (NewTypeScriptGenerator addonName) fs :=
    (docBlock_within_member f).trans (memberCode_within_output _ fs f hf)
  refine ⟨⟨_, tsGenerate_ok (NewTypeScriptGenerator addonName) fs haddon hnames, hmain⟩, ?_⟩
  intro d docList hdoc hparse
  obtain ⟨docList1, hdoc1, -, hname, -, hdocu, -⟩ := (ParseFuncDecl_ok_iff d f).1 hparse
  rw [hdoc] at hdoc1
  cases hdoc1
  refine ⟨_, tsGenerate_ok (NewTypeScriptGenerator addonName) fs haddon hnames, ?_⟩
  rw [← hdocu, ← hname]
  exact hmain

/-- C16 (witness): the statement at the record of `Sum`. -/
theorem C16_documentation_round_trip_witness :
    (∃ out, (NewTypeScriptGenerator "calculator").Generate [sumRecord] = .ok out ∧
        docBlock sumRecord.Doc (lowerFirstByte (utf8 sumRecord.Name)) <:+: out) ∧
      (∀ d docList, d.Doc = some docList → ParseFuncDecl d = .ok (some sumRecord) →
        ∃ out, (NewTypeScriptGenerator "calculator").Generate [sumRecord] = .ok out ∧
          docBlock (extractDocumentation docList) (lowerFirstByte (utf8 d.Name)) <:+: out) :=
  C16_documentation_round_trip "calculator" [sumRecord] sumRecord (by decide) (by decide)
    (List.mem_cons_self _ _)


/-- C13: for every IR sequence accepted by both emitters, with names that
start with an ASCII letter, the C++ output ends with the `Init` routine made
of one line `NODE_SET_METHOD(exports, "<name>", <Name>_Func);` per record, in
IR order, where `<name>` is the record's name with the first letter
lower-cased and the remainder unchanged and `<Name>_Func` is the wrapper of
the same record; the TypeScript interface is made of one member per record, in
IR order, whose member name is that same `<name>`.  For the record of `Sum`
the registration is `NODE_SET_METHOD(exports, "sum", Sum_Func);` and the member
starts with `sum: (`. -/
theorem C13_registered_and_member_names_agree (addonName : String)
    (fs : List ExportedFunction) (haddon : addonName ≠ "")
    (hret : ∀ f ∈ fs, supportedReturnType f)
    (hnames : ∀ f ∈ fs, startsWithAsciiLetter f.Name = true) :
    (∃ cppHead, (NewCppGenerator addonName).Generate fs =
        .ok (cppHead ++ utf8 "void Init(Local<Object> exports) \x7b" ++
          fs.flatMap (fun f =>
            utf8 "\n\t\t\t\t\tNODE_SET_METHOD(exports, \"" ++ utf8 (lowerFirstLetter f.Name) ++
              utf8 "\", " ++ (utf8 f.Name ++ utf8 "_Func") ++ utf8 ");\n\t\t\t\t") ++
          utf8 "\x7d" ++ utf8 "NODE_MODULE(NODE_GYP_MODULE_NAME, Init)" ++ utf8 "\x7d")) ∧
      (∃ interfaceName tsTail, (NewTypeScriptGenerator addonName).Generate fs =
        .ok (utf8 "export interface " ++ interfaceName ++ utf8 " \x7b" ++
          fs.flatMap (fun f =>
            utf8 "\n\t\t/**\n\t\t" ++ utf8 f.Doc ++ utf8 "\n\t\t**/\n\t\t\t" ++
              utf8 (lowerFirstLetter f.Name) ++ utf8 ": (" ++ typescriptArgs f ++
              utf8 ") => " ++ utf8 f.ReturnType ++ utf8 ";\n\t\t") ++
          utf8 "\n\x7d" ++ tsTail)) ∧
      (∃ cppOut tsOut, (NewCppGenerator "calculator").Generate [sumRecord] = .ok cppOut ∧
        (NewTypeScriptGenerator "calculator").Generate [sumRecord] = .ok tsOut ∧
        utf8 "void Init(Local<Object> exports) \x7b\n\t\t\t\t\tNODE_SET_METHOD(exports, \"sum\", Sum_Func);\n\t\t\t\t\x7dNODE_MODULE(NODE_GYP_MODULE_NAME, Init)\x7d"
          <:+: cppOut ∧
        utf8 "**/\n\t\t\tsum: (x: number,y: number) => number;" <:+: tsOut) := by
  have hne : ∀ f ∈ fs, f.Name ≠ "" :=
    fun f hf => startsWithAsciiLetter_ne_empty f.Name (hnames f hf)
  have hreg : fs.flatMap (fun f =>
      registrationCode (lowerFirstByte (utf8 f.Name)) (utf8 f.Name ++ utf8 "_Func")) =
      fs.flatMap (fun f =>
        utf8 "\n\t\t\t\t\tNODE_SET_METHOD(exports, \"" ++ utf8 (lowerFirstLetter f.Name) ++
          utf8 "\", " ++ (utf8 f.Name ++ utf8 "_Func") ++ utf8 ");\n\t\t\t\t") := by
    apply List.flatMap_congr
    intro f hf
    rw [lowerFirstByte_of_letter f.Name (hnames f hf)]
    rfl
  have hmem : fs.flatMap (fun f => memberCode f (lowerFirstByte (utf8 f.Name))) =
      fs.flatMap (fun f =>
        utf8 "\n\t\t/**\n\t\t" ++ utf8 f.Doc ++ utf8 "\n\t\t**/\n\t\t\t" ++
          utf8 (lowerFirstLetter f.Name) ++ utf8 ": (" ++ typescriptArgs f ++
          utf8 ") => " ++ utf8 f.ReturnType ++ utf8 ";\n\t\t") := by
    apply List.flatMap_congr
    intro f hf
    rw [memberCode_eq, lowerFirstByte_of_letter f.Name (hnames f hf)]
  refine ⟨⟨cppPreamble (NewCppGenerator addonName) ++ fs.flatMap wrapperCode, ?_⟩,
    ⟨upperFirstByte (utf8 addonName),
      (utf8 "\n\t\tconst addon: " ++ upperFirstByte (utf8 addonName) ++
        utf8 " = require(\"" ++ utf8 addonName ++ utf8 "\");\n\t") ++
        utf8 "export default addon;", ?_⟩,
    ⟨cppCode (NewCppGenerator "calculator") [sumRecord],
      typeScriptCode (NewTypeScriptGenerator "calculator") [sumRecord],
      cppGenerate_ok _ _ (by intro f hf; rw [List.mem_singleton.1 hf]; exact Or.inr rfl)
        (by decide),
      tsGenerate_ok _ _ (by decide) (by decide), ?_, ?_⟩⟩
  · rw [cppGenerate_ok (NewCppGenerator addonName) fs hret hne, cppCode, hreg]
  · rw [tsGenerate_ok (NewTypeScriptGenerator addonName) fs haddon hne, typeScriptCode, hmem]
    simp only [NewTypeScriptGenerator, List.append_assoc]
  · have hlit : utf8 "void Init(Local<Object> exports) \x7b" ++
        [sumRecord].flatMap (fun f =>
          registrationCode (lowerFirstByte (utf8 f.Name)) (utf8 f.Name ++ utf8 "_Func")) ++
        utf8 "\x7d" ++ utf8 "NODE_MODULE(NODE_GYP_MODULE_NAME, Init)" ++ utf8 "\x7d" =
        utf8 "void Init(Local<Object> exports) \x7b\n\t\t\t\t\tNODE_SET_METHOD(exports, \"sum\", Sum_Func);\n\t\t\t\t\x7dNODE_MODULE(NODE_GYP_MODULE_NAME, Init)\x7d" := by
      decide
    rw [← hlit]
    exact ⟨cppPreamble (NewCppGenerator "calculator") ++ [sumRecord].flatMap wrapperCode, [],
      by simp only [cppCode, List.append_assoc, List.append_nil]⟩
  · decide

/-- C13 (witness): the statement at the record of `Sum` and the addon name
`calculator`. -/
theorem C13_registered_and_member_names_agree_witness :
    (∃ cppHead, (NewCppGenerator "calculator").Generate [sumRecord] =
        .ok (cppHead ++ utf8 "void Init(Local<Object> exports) \x7b" ++
          [sumRecord].flatMap (fun f =>
            utf8 "\n\t\t\t\t\tNODE_SET_METHOD(exports, \"" ++ utf8 (lowerFirstLetter f.Name) ++
              utf8 "\", " ++ (utf8 f.Name ++ utf8 "_Func") ++ utf8 ");\n\t\t\t\t") ++
          utf8 "\x7d" ++ utf8 "NODE_MODULE(NODE_GYP_MODULE_NAME, Init)" ++ utf8 "\x7d")) ∧
      (∃ interfaceName tsTail, (NewTypeScriptGenerator "calculator").Generate [sumRecord] =
        .ok (utf8 "export interface " ++ interfaceName ++ utf8 " \x7b" ++
          [sumRecord].flatMap (fun f =>
            utf8 "\n\t\t/**\n\t\t" ++ utf8 f.Doc ++ utf8 "\n\t\t**/\n\t\t\t" ++
              utf8 (lowerFirstLetter f.Name) ++ utf8 ": (" ++ typescriptArgs f ++
              utf8 ") => " ++ utf8 f.ReturnType ++ utf8 ";\n\t\t") ++
          utf8 "\n\x7d" ++ tsTail)) ∧
      (∃ cppOut tsOut, (NewCppGenerator "calculator").Generate [sumRecord] = .ok cppOut ∧
        (NewTypeScriptGenerator "calculator").Generate [sumRecord] = .ok tsOut ∧
        utf8 "void Init(Local<Object> exports) \x7b\n\t\t\t\t\tNODE_SET_METHOD(exports, \"sum\", Sum_Func);\n\t\t\t\t\x7dNODE_MODULE(NODE_GYP_MODULE_NAME, Init)\x7d"
          <:+: cppOut ∧
        utf8 "**/\n\t\t\tsum: (x: number,y: number) => number;" <:+: tsOut) :=
  C13_registered_and_member_names_agree "calculator" [sumRecord] (by decide)
    (by intro f hf; rw [List.mem_singleton.1 hf]; exact Or.inr rfl) (by decide)

/-! ## Claims about the wrappers of the native emitter -/

theorem callCode_eq (f : ExportedFunction) :
    callCode f = utf8 "\n\t\t" ++ callText f ++ utf8 ";\n\t" := by
  have hargs : TrimSuffixBytes (argsListLoop f.Params []) (utf8 ", ") =
      JoinBytes (f.Params.map goVar) (utf8 ", ") := by
    rw [argsListLoop_eq, List.nil_append,
      ← trimSuffix_flatMap_sep _ (utf8 ", ") (by decide), List.flatMap_map]
    rfl
  have h1 : utf8 "\n\t\tauto result = " = utf8 "\n\t\t" ++ utf8 "auto result = " := by decide
  have h2 : utf8 ");\n\t" = utf8 ")" ++ utf8 ";\n\t" := by decide
  unfold callCode callText
  simp only [hargs, h1, h2, List.append_assoc]

theorem wrapperCode_eq (f : ExportedFunction) :
    wrapperCode f = wrapperHead f ++ argCountCheck f.Params.length ++
      argTypeChecks f.Params 0 ++ argConversions f.Params 0 ++
      utf8 "// Call the function exported from Go.\n" ++ callCode f ++ wrapperResult f := by
  unfold wrapperCode finishMethodCode methodCodeBeforeResult wrapperHead wrapperResult
  simp only [argTypeCheckLoop_eq, argConversionLoop_eq, List.append_assoc, List.nil_append,
    GeneratedMethodNameSuffix]

theorem argTypeCheck_within_checks (params : List ExportedFunctionParam) :
    ∀ (i start : Nat) (param : ExportedFunctionParam), params[i]? = some param →
      argTypeCheck (start + i) param <:+: argTypeChecks params start := by
  induction params with
  | nil => intro i start param h; simp at h
  | cons first rest ih =>
    intro i start param h
    cases i with
    | zero =>
      simp only [List.getElem?_cons_zero, Option.some.injEq] at h
      subst h
      exact infix_append_left _ _ _ (List.infix_refl _)
    | succ j =>
      simp only [List.getElem?_cons_succ] at h
      have hj := ih j (start + 1) param h
      have hidx : start + 1 + j = start + (j + 1) := by omega
      rw [hidx] at hj
      exact infix_append_right _ _ _ hj

theorem argConversion_within_conversions (params : List ExportedFunctionParam) :
    ∀ (i start : Nat) (param : ExportedFunctionParam), params[i]? = some param →
      argConversion (start + i) param <:+: argConversions params start := by
  induction params with
  | nil => intro i start param h; simp at h
  | cons first rest ih =>
    intro i start param h
    cases i with
    | zero =>
      simp only [List.getElem?_cons_zero, Option.some.injEq] at h
      subst h
      exact infix_append_left _ _ _ (List.infix_refl _)
    | succ j =>
      simp only [List.getElem?_cons_succ] at h
      have hj := ih j (start + 1) param h
      have hidx : start + 1 + j = start + (j + 1) := by omega
      rw [hidx] at hj
      exact infix_append_right _ _ _ hj

theorem argTypeChecks_infix_wrapper (f : ExportedFunction) :
    argTypeChecks f.Params 0 <:+: wrapperCode f := by
  rw [wrapperCode_eq]
  exact ⟨wrapperHead f ++ argCountCheck f.Params.length,
    argConversions f.Params 0 ++ utf8 "// Call the function exported from Go.\n" ++
      callCode f ++ wrapperResult f, by simp [List.append_assoc]⟩

theorem argConversions_infix_wrapper (f : ExportedFunction) :
    argConversions f.Params 0 <:+: wrapperCode f := by
  rw [wrapperCode_eq]
  exact ⟨wrapperHead f ++ argCountCheck f.Params.length ++ argTypeChecks f.Params 0,
    utf8 "// Call the function exported from Go.\n" ++ callCode f ++ wrapperResult f,
    by simp [List.append_assoc]⟩

theorem wrapperCode_infix_cppCode (g : CppGenerator) (fs : List ExportedFunction)
    (f : ExportedFunction) (hf : f ∈ fs) : wrapperCode f <:+: cppCode g fs := by
  unfold cppCode
  apply infix_append_left
  apply infix_append_left
  apply infix_append_left
  apply infix_append_left
  apply infix_append_left
  apply infix_append_right
  exact infix_flatMap_of_mem fs f wrapperCode hf


/-- The part of a wrapper that precedes the call: a text found there is
followed, later in the wrapper, by `auto result = <Name>(`. -/
theorem wrapper_text_before_call (f : ExportedFunction) (s text t : Bytes)
    (h : wrapperHead f ++ argCountCheck f.Params.length ++ argTypeChecks f.Params 0 ++
      argConversions f.Params 0 ++ utf8 "// Call the function exported from Go.\n" =
        s ++ text ++ t) :
    ∃ pre mid post, wrapperCode f =
      pre ++ text ++ mid ++ (utf8 "auto result = " ++ utf8 f.Name ++ utf8 "(") ++ post := by
  refine ⟨s, t ++ utf8 "\n\t\t",
    JoinBytes (f.Params.map goVar) (utf8 ", ") ++ utf8 ")" ++ utf8 ";\n\t" ++ wrapperResult f,
    ?_⟩
  rw [wrapperCode_eq, h, callCode_eq, callText]
  simp only [List.append_assoc]

theorem argCountCheck_text (n : Nat) :
    argCountCheck n = utf8 "\n\t\t// Check the number of arguments passed.\n\t\t" ++
      (utf8 "if (args.Length() < " ++ utf8 (toString n) ++
          utf8 ")\n\t\t\x7b\n\t\t\t// Throw an Error that is passed back to JavaScript\n\t\t\tisolate->ThrowException(Exception::TypeError(\n\t\t\t\t\tString::NewFromUtf8(isolate,\n\t\t\t\t\t\t\t\t\t\t\t\t\t\t\t\t\"Wrong number of arguments (expected " ++
          utf8 (toString n) ++
          utf8 ")\")\n\t\t\t\t\t\t.ToLocalChecked()));\n\t\t\treturn;\n\t\t\x7d") ++
      utf8 "\n\t" := by
  have h1 : utf8 "\n\t\t// Check the number of arguments passed.\n\t\tif (args.Length() < " =
      utf8 "\n\t\t// Check the number of arguments passed.\n\t\t" ++ utf8 "if (args.Length() < " := by decide
  have h2 : utf8 ")\")\n\t\t\t\t\t\t.ToLocalChecked()));\n\t\t\treturn;\n\t\t\x7d\n\t" =
      utf8 ")\")\n\t\t\t\t\t\t.ToLocalChecked()));\n\t\t\treturn;\n\t\t\x7d" ++ utf8 "\n\t" := by
    decide
  unfold argCountCheck Itoa
  rw [h1, h2]
  simp only [List.append_assoc]

theorem argTypeCheck_string_text (i : Nat) (param : ExportedFunctionParam)
    (h : param.Typ = "string") :
    argTypeCheck i param = utf8 "\n\t\t\t\t" ++
      (utf8 "if (!args[" ++ utf8 (toString i) ++
            utf8 "]->IsString())\n\t\t\t\t\x7b\n\t\t\t\t\tisolate->ThrowException(Exception::TypeError(\n\t\t\t\t\t\t\tString::NewFromUtf8(isolate,\n\t\t\t\t\t\t\t\t\t\t\t\t\t\t\t\t\"Wrong arguments\")\n\t\t\t\t\t\t\t\t.ToLocalChecked()));\n\t\t\t\t\treturn;\n\t\t\x7d") := by
  have h1 : utf8 "\n\t\t\t\tif (!args[" = utf8 "\n\t\t\t\t" ++ utf8 "if (!args[" := by decide
  unfold argTypeCheck Itoa
  rw [if_pos h, h1]
  simp only [List.append_assoc]

theorem argTypeCheck_number_text (i : Nat) (param : ExportedFunctionParam)
    (h : param.Typ = "number") :
    argTypeCheck i param = utf8 "\n\t\t\t\t" ++
      (utf8 "if (!args[" ++ utf8 (toString i) ++
            utf8 "]->IsNumber())\n\t\t\t\t\x7b\n\t\t\t\t\tisolate->ThrowException(Exception::TypeError(\n\t\t\t\t\t\t\tString::NewFromUtf8(isolate,\n\t\t\t\t\t\t\t\t\t\t\t\t\t\t\t\t\"Wrong arguments\")\n\t\t\t\t\t\t\t\t.ToLocalChecked()));\n\t\t\t\t\treturn;\n\t\t\t\t\x7d") := by
  have hne : param.Typ ≠ "string" := by rw [h]; decide
  have h1 : utf8 "\n\t\t\t\tif (!args[" = utf8 "\n\t\t\t\t" ++ utf8 "if (!args[" := by decide
  unfold argTypeCheck Itoa
  rw [if_neg hne, if_pos h, h1]
  simp only [List.append_assoc]

/-- The guard on the number of arguments precedes the call. -/
theorem guard_before_call (f : ExportedFunction) :
    ∃ pre mid post, wrapperCode f = pre ++
        (utf8 "if (args.Length() < " ++ utf8 (toString f.Params.length) ++
          utf8 ")\n\t\t\x7b\n\t\t\t// Throw an Error that is passed back to JavaScript\n\t\t\tisolate->ThrowException(Exception::TypeError(\n\t\t\t\t\tString::NewFromUtf8(isolate,\n\t\t\t\t\t\t\t\t\t\t\t\t\t\t\t\t\"Wrong number of arguments (expected " ++
          utf8 (toString f.Params.length) ++
          utf8 ")\")\n\t\t\t\t\t\t.ToLocalChecked()));\n\t\t\treturn;\n\t\t\x7d") ++
        mid ++ (utf8 "auto result = " ++ utf8 f.Name ++ utf8 "(") ++ post := by
  apply wrapper_text_before_call f
    (wrapperHead f ++ utf8 "\n\t\t// Check the number of arguments passed.\n\t\t") _
    (utf8 "\n\t" ++ argTypeChecks f.Params 0 ++ argConversions f.Params 0 ++
      utf8 "// Call the function exported from Go.\n")
  rw [argCountCheck_text]
  simp only [List.append_assoc]

/-- A text that is one iteration of the type-check loop, after its leading
white space, precedes the call. -/
theorem type_check_before_call (f : ExportedFunction) (i : Nat)
    (param : ExportedFunctionParam) (text : Bytes) (hparam : f.Params[i]? = some param)
    (htext : argTypeCheck i param = utf8 "\n\t\t\t\t" ++ text) :
    ∃ pre mid post, wrapperCode f =
      pre ++ text ++ mid ++ (utf8 "auto result = " ++ utf8 f.Name ++ utf8 "(") ++ post := by
  have key := argTypeCheck_within_checks f.Params i 0 param hparam
  rw [Nat.zero_add] at key
  obtain ⟨s, t, hst⟩ := key
  apply wrapper_text_before_call f
    (wrapperHead f ++ argCountCheck f.Params.length ++ s ++ utf8 "\n\t\t\t\t") text
    (t ++ argConversions f.Params 0 ++ utf8 "// Call the function exported from Go.\n")
  rw [← hst, htext]
  simp only [List.append_assoc]

/-- C17: for every IR record that the native emitter accepts, with n
parameters, the wrapper contains the guard `if (args.Length() < n)`, with n
written in decimal, whose body throws a TypeError with the message
`Wrong number of arguments (expected n)` and then returns; this guard, and the
type check `if (!args[i]->IsString())` or `if (!args[i]->IsNumber())` of every
parameter of type `string` or `number`, stands in the wrapper before the
delegated call `auto result = <Name>(`.  For the record of `Sum` the guard is
`if (args.Length() < 2)` with the message
`Wrong number of arguments (expected 2)`, before `auto result = Sum(`. -/
theorem C17_guard_precedes_call (g : CppGenerator) (f : ExportedFunction)
    (hret : supportedReturnType f) :
    g.generateCodeForFunction f = .ok (wrapperCode f) ∧
  (∃ pre mid post, wrapperCode f = pre ++
        (utf8 "if (args.Length() < " ++ utf8 (toString f.Params.length) ++
          utf8 ")\n\t\t\x7b\n\t\t\t// Throw an Error that is passed back to JavaScript\n\t\t\tisolate->ThrowException(Exception::TypeError(\n\t\t\t\t\tString::NewFromUtf8(isolate,\n\t\t\t\t\t\t\t\t\t\t\t\t\t\t\t\t\"Wrong number of arguments (expected " ++
          utf8 (toString f.Params.length) ++
          utf8 ")\")\n\t\t\t\t\t\t.ToLocalChecked()));\n\t\t\treturn;\n\t\t\x7d") ++
        mid ++ (utf8 "auto result = " ++ utf8 f.Name ++ utf8 "(") ++ post) ∧
      (∀ (i : Nat) (param : ExportedFunctionParam), f.Params[i]? = some param → param.Typ = "string" →
        ∃ pre mid post, wrapperCode f = pre ++
          (utf8 "if (!args[" ++ utf8 (toString i) ++
            utf8 "]->IsString())\n\t\t\t\t\x7b\n\t\t\t\t\tisolate->ThrowException(Exception::TypeError(\n\t\t\t\t\t\t\tString::NewFromUtf8(isolate,\n\t\t\t\t\t\t\t\t\t\t\t\t\t\t\t\t\"Wrong arguments\")\n\t\t\t\t\t\t\t\t.ToLocalChecked()));\n\t\t\t\t\treturn;\n\t\t\x7d") ++
          mid ++ (utf8 "auto result = " ++ utf8 f.Name ++ utf8 "(") ++ post) ∧
      (∀ (i : Nat) (param : ExportedFunctionParam), f.Params[i]? = some param → param.Typ = "number" →
        ∃ pre mid post, wrapperCode f = pre ++
          (utf8 "if (!args[" ++ utf8 (toString i) ++
            utf8 "]->IsNumber())\n\t\t\t\t\x7b\n\t\t\t\t\tisolate->ThrowException(Exception::TypeError(\n\t\t\t\t\t\t\tString::NewFromUtf8(isolate,\n\t\t\t\t\t\t\t\t\t\t\t\t\t\t\t\t\"Wrong arguments\")\n\t\t\t\t\t\t\t\t.ToLocalChecked()));\n\t\t\t\t\treturn;\n\t\t\t\t\x7d") ++
          mid ++ (utf8 "auto result = " ++ utf8 f.Name ++ utf8 "(") ++ post) ∧
      (∃ pre mid post, wrapperCode sumRecord = pre ++
        utf8 "if (args.Length() < 2)\n\t\t\x7b\n\t\t\t// Throw an Error that is passed back to JavaScript\n\t\t\tisolate->ThrowException(Exception::TypeError(\n\t\t\t\t\tString::NewFromUtf8(isolate,\n\t\t\t\t\t\t\t\t\t\t\t\t\t\t\t\t\"Wrong number of arguments (expected 2)\")\n\t\t\t\t\t\t.ToLocalChecked()));\n\t\t\treturn;\n\t\t\x7d" ++
        mid ++ utf8 "auto result = Sum(" ++ post) := by
  refine ⟨generateCodeForFunction_ok g f hret, guard_before_call f, ?_, ?_, ?_⟩
  · intro i param hparam hty
    exact type_check_before_call f i param _ hparam (argTypeCheck_string_text i param hty)
  · intro i param hparam hty
    exact type_check_before_call f i param _ hparam (argTypeCheck_number_text i param hty)
  · obtain ⟨pre, mid, post, h⟩ := guard_before_call sumRecord
    have h1 : (utf8 "if (args.Length() < " ++ utf8 (toString sumRecord.Params.length) ++
          utf8 ")\n\t\t\x7b\n\t\t\t// Throw an Error that is passed back to JavaScript\n\t\t\tisolate->ThrowException(Exception::TypeError(\n\t\t\t\t\tString::NewFromUtf8(isolate,\n\t\t\t\t\t\t\t\t\t\t\t\t\t\t\t\t\"Wrong number of arguments (expected " ++
          utf8 (toString sumRecord.Params.length) ++
          utf8 ")\")\n\t\t\t\t\t\t.ToLocalChecked()));\n\t\t\treturn;\n\t\t\x7d") =
        utf8 "if (args.Length() < 2)\n\t\t\x7b\n\t\t\t// Throw an Error that is passed back to JavaScript\n\t\t\tisolate->ThrowException(Exception::TypeError(\n\t\t\t\t\tString::NewFromUtf8(isolate,\n\t\t\t\t\t\t\t\t\t\t\t\t\t\t\t\t\"Wrong number of arguments (expected 2)\")\n\t\t\t\t\t\t.ToLocalChecked()));\n\t\t\treturn;\n\t\t\x7d" := by
      decide
    have h2 : utf8 "auto result = " ++ utf8 sumRecord.Name ++ utf8 "(" =
        utf8 "auto result = Sum(" := by decide
    rw [h1, h2] at h
    exact ⟨pre, mid, post, h⟩

/-- C17 (witness): the statement at the record of `Sum`. -/
theorem C17_guard_precedes_call_witness :
    (NewCppGenerator "calculator").generateCodeForFunction sumRecord =
        .ok (wrapperCode sumRecord) ∧
  (∃ pre mid post, wrapperCode sumRecord = pre ++
        (utf8 "if (args.Length() < " ++ utf8 (toString sumRecord.Params.length) ++
          utf8 ")\n\t\t\x7b\n\t\t\t// Throw an Error that is passed back to JavaScript\n\t\t\tisolate->ThrowException(Exception::TypeError(\n\t\t\t\t\tString::NewFromUtf8(isolate,\n\t\t\t\t\t\t\t\t\t\t\t\t\t\t\t\t\"Wrong number of arguments (expected " ++
          utf8 (toString sumRecord.Params.length) ++
          utf8 ")\")\n\t\t\t\t\t\t.ToLocalChecked()));\n\t\t\treturn;\n\t\t\x7d") ++
        mid ++ (utf8 "auto result = " ++ utf8 sumRecord.Name ++ utf8 "(") ++ post) ∧
      (∀ (i : Nat) (param : ExportedFunctionParam), sumRecord.Params[i]? = some param → param.Typ = "string" →
        ∃ pre mid post, wrapperCode sumRecord = pre ++
          (utf8 "if (!args[" ++ utf8 (toString i) ++
            utf8 "]->IsString())\n\t\t\t\t\x7b\n\t\t\t\t\tisolate->ThrowException(Exception::TypeError(\n\t\t\t\t\t\t\tString::NewFromUtf8(isolate,\n\t\t\t\t\t\t\t\t\t\t\t\t\t\t\t\t\"Wrong arguments\")\n\t\t\t\t\t\t\t\t.ToLocalChecked()));\n\t\t\t\t\treturn;\n\t\t\x7d") ++
          mid ++ (utf8 "auto result = " ++ utf8 sumRecord.Name ++ utf8 "(") ++ post) ∧
      (∀ (i : Nat) (param : ExportedFunctionParam), sumRecord.Params[i]? = some param → param.Typ = "number" →
        ∃ pre mid post, wrapperCode sumRecord = pre ++
          (utf8 "if (!args[" ++ utf8 (toString i) ++
            utf8 "]->IsNumber())\n\t\t\t\t\x7b\n\t\t\t\t\tisolate->ThrowException(Exception::TypeError(\n\t\t\t\t\t\t\tString::NewFromUtf8(isolate,\n\t\t\t\t\t\t\t\t\t\t\t\t\t\t\t\t\"Wrong arguments\")\n\t\t\t\t\t\t\t\t.ToLocalChecked()));\n\t\t\t\t\treturn;\n\t\t\t\t\x7d") ++
          mid ++ (utf8 "auto result = " ++ utf8 sumRecord.Name ++ utf8 "(") ++ post) ∧
      (∃ pre mid post, wrapperCode sumRecord = pre ++
        utf8 "if (args.Length() < 2)\n\t\t\x7b\n\t\t\t// Throw an Error that is passed back to JavaScript\n\t\t\tisolate->ThrowException(Exception::TypeError(\n\t\t\t\t\tString::NewFromUtf8(isolate,\n\t\t\t\t\t\t\t\t\t\t\t\t\t\t\t\t\"Wrong number of arguments (expected 2)\")\n\t\t\t\t\t\t.ToLocalChecked()));\n\t\t\treturn;\n\t\t\x7d" ++
        mid ++ utf8 "auto result = Sum(" ++ post) :=
  C17_guard_precedes_call (NewCppGenerator "calculator") sumRecord (Or.inr rfl)

/-- The checks, the conversions and the rebuilt result inside a wrapper. -/
theorem wrapper_checks_and_conversions (f : ExportedFunction)
    (i : Nat) (param : ExportedFunctionParam) (hparam : f.Params[i]? = some param) :
    (param.Typ = "string" →
        (utf8 "!args[" ++ utf8 (toString i) ++ utf8 "]->IsString()") <:+: wrapperCode f ∧
        (utf8 "String::Utf8Value " ++ (utf8 "go_" ++ utf8 param.Name) ++ utf8 "_s(isolate, args[" ++ utf8 (toString i) ++
          utf8 "]);\n    \t\tchar* " ++ (utf8 "go_" ++ utf8 param.Name) ++ utf8 " = *" ++ (utf8 "go_" ++ utf8 param.Name) ++
          utf8 "_s;") <:+: wrapperCode f) ∧
      (param.Typ = "number" →
        (utf8 "!args[" ++ utf8 (toString i) ++ utf8 "]->IsNumber()") <:+: wrapperCode f ∧
        (utf8 "auto " ++ (utf8 "go_" ++ utf8 param.Name) ++ utf8 " = args[" ++ utf8 (toString i) ++
          utf8 "].As<Number>()->Value();") <:+: wrapperCode f) ∧
      (f.ReturnType = "string" →
        utf8 "auto nodeResult = String::NewFromUtf8(isolate, result, NewStringType::kNormal).ToLocalChecked();"
          <:+: wrapperCode f) ∧
      (f.ReturnType = "number" →
        utf8 "auto nodeResult = Number::New(isolate, result);" <:+: wrapperCode f) := by
  have hcheck : argTypeCheck i param <:+: wrapperCode f := by
    have key := argTypeCheck_within_checks f.Params i 0 param hparam
    rw [Nat.zero_add] at key
    exact key.trans (argTypeChecks_infix_wrapper f)
  have hconv : argConversion i param <:+: wrapperCode f := by
    have key := argConversion_within_conversions f.Params i 0 param hparam
    rw [Nat.zero_add] at key
    exact key.trans (argConversions_infix_wrapper f)
  have hresult : ∀ conv tail : Bytes, resultConversion f ++ utf8 ";\n" = conv ++ tail →
      (utf8 "auto nodeResult = " ++ conv) <:+: wrapperCode f := by
    intro conv tail h
    rw [wrapperCode_eq]
    apply infix_append_right
    unfold wrapperResult
    refine ⟨utf8 "// Collect the result\n",
      tail ++ utf8 "args.GetReturnValue().Set(nodeResult);" ++ utf8 "\n\t\x7d", ?_⟩
    have h1 : utf8 "// Collect the result\n" ++ (utf8 "auto nodeResult = " ++ conv) ++
        (tail ++ utf8 "args.GetReturnValue().Set(nodeResult);" ++ utf8 "\n\t\x7d") =
        utf8 "// Collect the result\n" ++ utf8 "auto nodeResult = " ++ (conv ++ tail) ++
          utf8 "args.GetReturnValue().Set(nodeResult);" ++ utf8 "\n\t\x7d" := by
      simp only [List.append_assoc]
    rw [h1, ← h]
    simp only [List.append_assoc]
  refine ⟨?_, ?_, ?_, ?_⟩
  · intro hty
    refine ⟨List.IsInfix.trans ?_ hcheck, List.IsInfix.trans ?_ hconv⟩
    · have h1 : utf8 "\n\t\t\t\tif (!args[" = utf8 "\n\t\t\t\tif (" ++ utf8 "!args[" := by
        decide
      have h2 : utf8 "]->IsString())\n\t\t\t\t\x7b\n\t\t\t\t\tisolate->ThrowException(Exception::TypeError(\n\t\t\t\t\t\t\tString::NewFromUtf8(isolate,\n\t\t\t\t\t\t\t\t\t\t\t\t\t\t\t\t\"Wrong arguments\")\n\t\t\t\t\t\t\t\t.ToLocalChecked()));\n\t\t\t\t\treturn;\n\t\t\x7d" =
          utf8 "]->IsString()" ++ utf8 ")\n\t\t\t\t\x7b\n\t\t\t\t\tisolate->ThrowException(Exception::TypeError(\n\t\t\t\t\t\t\tString::NewFromUtf8(isolate,\n\t\t\t\t\t\t\t\t\t\t\t\t\t\t\t\t\"Wrong arguments\")\n\t\t\t\t\t\t\t\t.ToLocalChecked()));\n\t\t\t\t\treturn;\n\t\t\x7d" := by
        decide
      unfold argTypeCheck Itoa
      rw [if_pos hty, h1, h2]
      exact ⟨utf8 "\n\t\t\t\tif (", utf8 ")\n\t\t\t\t\x7b\n\t\t\t\t\tisolate->ThrowException(Exception::TypeError(\n\t\t\t\t\t\t\tString::NewFromUtf8(isolate,\n\t\t\t\t\t\t\t\t\t\t\t\t\t\t\t\t\"Wrong arguments\")\n\t\t\t\t\t\t\t\t.ToLocalChecked()));\n\t\t\t\t\treturn;\n\t\t\x7d",
        by simp only [List.append_assoc]⟩
    · have h1 : utf8 "\n\t\t\t\tString::Utf8Value " =
          utf8 "\n\t\t\t\t" ++ utf8 "String::Utf8Value " := by decide
      have h2 : utf8 "_s;\n\t\t\t" = utf8 "_s;" ++ utf8 "\n\t\t\t" := by decide
      unfold argConversion Itoa
      simp only [if_pos hty, h1, h2, ArgPrefix]
      exact ⟨utf8 "\n\t\t\t\t", utf8 "\n\t\t\t", by simp only [goVar, List.append_assoc]⟩
  · intro hty
    have hne : param.Typ ≠ "string" := by rw [hty]; decide
    refine ⟨List.IsInfix.trans ?_ hcheck, List.IsInfix.trans ?_ hconv⟩
    · have h1 : utf8 "\n\t\t\t\tif (!args[" = utf8 "\n\t\t\t\tif (" ++ utf8 "!args[" := by
        decide
      have h2 : utf8 "]->IsNumber())\n\t\t\t\t\x7b\n\t\t\t\t\tisolate->ThrowException(Exception::TypeError(\n\t\t\t\t\t\t\tString::NewFromUtf8(isolate,\n\t\t\t\t\t\t\t\t\t\t\t\t\t\t\t\t\"Wrong arguments\")\n\t\t\t\t\t\t\t\t.ToLocalChecked()));\n\t\t\t\t\treturn;\n\t\t\t\t\x7d" =
          utf8 "]->IsNumber()" ++ utf8 ")\n\t\t\t\t\x7b\n\t\t\t\t\tisolate->ThrowException(Exception::TypeError(\n\t\t\t\t\t\t\tString::NewFromUtf8(isolate,\n\t\t\t\t\t\t\t\t\t\t\t\t\t\t\t\t\"Wrong arguments\")\n\t\t\t\t\t\t\t\t.ToLocalChecked()));\n\t\t\t\t\treturn;\n\t\t\t\t\x7d" := by
        decide
      unfold argTypeCheck Itoa
      rw [if_neg hne, if_pos hty, h1, h2]
      exact ⟨utf8 "\n\t\t\t\tif (", utf8 ")\n\t\t\t\t\x7b\n\t\t\t\t\tisolate->ThrowException(Exception::TypeError(\n\t\t\t\t\t\t\tString::NewFromUtf8(isolate,\n\t\t\t\t\t\t\t\t\t\t\t\t\t\t\t\t\"Wrong arguments\")\n\t\t\t\t\t\t\t\t.ToLocalChecked()));\n\t\t\t\t\treturn;\n\t\t\t\t\x7d",
        by simp only [List.append_assoc]⟩
    · have h1 : utf8 "\n\t\t\t\tauto " = utf8 "\n\t\t\t\t" ++ utf8 "auto " := by decide
      have h2 : utf8 "].As<Number>()->Value();\n\t\t\t" =
          utf8 "].As<Number>()->Value();" ++ utf8 "\n\t\t\t" := by decide
      unfold argConversion Itoa
      simp only [if_neg hne, if_pos hty, h1, h2, ArgPrefix]
      exact ⟨utf8 "\n\t\t\t\t", utf8 "\n\t\t\t", by simp only [goVar, List.append_assoc]⟩
  · intro hty
    have h1 : utf8 "auto nodeResult = String::NewFromUtf8(isolate, result, NewStringType::kNormal).ToLocalChecked();" =
        utf8 "auto nodeResult = " ++
          utf8 "String::NewFromUtf8(isolate, result, NewStringType::kNormal).ToLocalChecked();" := by
      decide
    rw [h1]
    refine hresult _ (utf8 "\n") ?_
    unfold resultConversion
    rw [if_pos hty]
    decide
  · intro hty
    have hne : f.ReturnType ≠ "string" := by rw [hty]; decide
    have h1 : utf8 "auto nodeResult = Number::New(isolate, result);" =
        utf8 "auto nodeResult = " ++ utf8 "Number::New(isolate, result);" := by
      decide
    rw [h1]
    refine hresult _ (utf8 "\n") ?_
    unfold resultConversion
    rw [if_neg hne]
    decide

/-- C18: for every IR record that the native emitter accepts and every
parameter at position i named p, with i written in decimal, the wrapper
contains, for the type `string`, the check `!args[i]->IsString()` and the
conversion `String::Utf8Value go_p_s(isolate, args[i]);` followed by
`char* go_p = *go_p_s;`, and for the type `number` the check
`!args[i]->IsNumber()` and the conversion
`auto go_p = args[i].As<Number>()->Value();`, each with the parameter's own
position as index; a `string` return is rebuilt with `String::NewFromUtf8`, a
`number` return with `Number::New`.  For `Sum(x, y float64) float64` the
wrapper checks `!args[0]->IsNumber()` and `!args[1]->IsNumber()` and converts
`auto go_x = args[0]...` and `auto go_y = args[1]...`; for
`Greet(greeting, name *C.char) *C.char` it checks `!args[1]->IsString()` and
converts `String::Utf8Value go_name_s(isolate, args[1]);`. -/
theorem C18_checks_and_conversions (g : CppGenerator) (f : ExportedFunction)
    (i : Nat) (param : ExportedFunctionParam) (hret : supportedReturnType f)
    (hparam : f.Params[i]? = some param) :
    g.generateCodeForFunction f = .ok (wrapperCode f) ∧
      (param.Typ = "string" →
          (utf8 "!args[" ++ utf8 (toString i) ++ utf8 "]->IsString()") <:+: wrapperCode f ∧
          (utf8 "String::Utf8Value " ++ (utf8 "go_" ++ utf8 param.Name) ++ utf8 "_s(isolate, args[" ++ utf8 (toString i) ++
            utf8 "]);\n    \t\tchar* " ++ (utf8 "go_" ++ utf8 param.Name) ++ utf8 " = *" ++ (utf8 "go_" ++ utf8 param.Name) ++
            utf8 "_s;") <:+: wrapperCode f) ∧
        (param.Typ = "number" →
          (utf8 "!args[" ++ utf8 (toString i) ++ utf8 "]->IsNumber()") <:+: wrapperCode f ∧
          (utf8 "auto " ++ (utf8 "go_" ++ utf8 param.Name) ++ utf8 " = args[" ++ utf8 (toString i) ++
            utf8 "].As<Number>()->Value();") <:+: wrapperCode f) ∧
        (f.ReturnType = "string" →
          utf8 "auto nodeResult = String::NewFromUtf8(isolate, result, NewStringType::kNormal).ToLocalChecked();"
            <:+: wrapperCode f) ∧
        (f.ReturnType = "number" →
          utf8 "auto nodeResult = Number::New(isolate, result);" <:+: wrapperCode f) ∧
      (utf8 "!args[0]->IsNumber()" <:+: wrapperCode sumRecord ∧
        utf8 "auto go_x = args[0].As<Number>()->Value();" <:+: wrapperCode sumRecord ∧
        utf8 "!args[1]->IsNumber()" <:+: wrapperCode sumRecord ∧
        utf8 "auto go_y = args[1].As<Number>()->Value();" <:+: wrapperCode sumRecord ∧
        utf8 "auto nodeResult = Number::New(isolate, result);" <:+: wrapperCode sumRecord) ∧
      (utf8 "!args[1]->IsString()" <:+: wrapperCode greetRecord ∧
        utf8 "String::Utf8Value go_name_s(isolate, args[1]);\n    \t\tchar* go_name = *go_name_s;"
          <:+: wrapperCode greetRecord ∧
        utf8 "auto nodeResult = String::NewFromUtf8(isolate, result, NewStringType::kNormal).ToLocalChecked();"
          <:+: wrapperCode greetRecord) := by
  have hx := wrapper_checks_and_conversions sumRecord 0 ⟨"x", "number"⟩ rfl
  have hy := wrapper_checks_and_conversions sumRecord 1 ⟨"y", "number"⟩ rfl
  have hn := wrapper_checks_and_conversions greetRecord 1 ⟨"name", "string"⟩ rfl
  have ex1 : (utf8 "!args[" ++ utf8 (toString 0) ++ utf8 "]->IsNumber()") =
      utf8 "!args[0]->IsNumber()" := by decide
  have ex2 : (utf8 "auto " ++
      (utf8 "go_" ++ utf8 (⟨"x", "number"⟩ : ExportedFunctionParam).Name) ++
      utf8 " = args[" ++ utf8 (toString 0) ++ utf8 "].As<Number>()->Value();") =
      utf8 "auto go_x = args[0].As<Number>()->Value();" := by decide
  have ey1 : (utf8 "!args[" ++ utf8 (toString 1) ++ utf8 "]->IsNumber()") =
      utf8 "!args[1]->IsNumber()" := by decide
  have ey2 : (utf8 "auto " ++
      (utf8 "go_" ++ utf8 (⟨"y", "number"⟩ : ExportedFunctionParam).Name) ++
      utf8 " = args[" ++ utf8 (toString 1) ++ utf8 "].As<Number>()->Value();") =
      utf8 "auto go_y = args[1].As<Number>()->Value();" := by decide
  have en1 : (utf8 "!args[" ++ utf8 (toString 1) ++ utf8 "]->IsString()") =
      utf8 "!args[1]->IsString()" := by decide
  have en2 : (utf8 "String::Utf8Value " ++
      (utf8 "go_" ++ utf8 (⟨"name", "string"⟩ : ExportedFunctionParam).Name) ++
      utf8 "_s(isolate, args[" ++ utf8 (toString 1) ++ utf8 "]);\n    \t\tchar* " ++
      (utf8 "go_" ++ utf8 (⟨"name", "string"⟩ : ExportedFunctionParam).Name) ++ utf8 " = *" ++
      (utf8 "go_" ++ utf8 (⟨"name", "string"⟩ : ExportedFunctionParam).Name) ++ utf8 "_s;") =
      utf8 "String::Utf8Value go_name_s(isolate, args[1]);\n    \t\tchar* go_name = *go_name_s;" := by
    decide
  rw [ex1, ex2] at hx
  rw [ey1, ey2] at hy
  rw [en1, en2] at hn
  exact ⟨generateCodeForFunction_ok g f hret,
    (wrapper_checks_and_conversions f i param hparam).1,
    (wrapper_checks_and_conversions f i param hparam).2.1,
    (wrapper_checks_and_conversions f i param hparam).2.2.1,
    (wrapper_checks_and_conversions f i param hparam).2.2.2,
    ⟨(hx.2.1 rfl).1, (hx.2.1 rfl).2, (hy.2.1 rfl).1, (hy.2.1 rfl).2, hy.2.2.2 rfl⟩,
    ⟨(hn.1 rfl).1, (hn.1 rfl).2, hn.2.2.1 rfl⟩⟩

/-- C18 (witness): the statement at the second parameter of `Sum`. -/
theorem C18_checks_and_conversions_witness :
    (NewCppGenerator "calculator").generateCodeForFunction sumRecord =
        .ok (wrapperCode sumRecord) ∧
      ((⟨"y", "number"⟩ : ExportedFunctionParam).Typ = "string" →
          (utf8 "!args[" ++ utf8 (toString 1) ++ utf8 "]->IsString()") <:+: wrapperCode sumRecord ∧
          (utf8 "String::Utf8Value " ++ (utf8 "go_" ++ utf8 (⟨"y", "number"⟩ : ExportedFunctionParam).Name) ++ utf8 "_s(isolate, args[" ++ utf8 (toString 1) ++
            utf8 "]);\n    \t\tchar* " ++ (utf8 "go_" ++ utf8 (⟨"y", "number"⟩ : ExportedFunctionParam).Name) ++ utf8 " = *" ++ (utf8 "go_" ++ utf8 (⟨"y", "number"⟩ : ExportedFunctionParam).Name) ++
            utf8 "_s;") <:+: wrapperCode sumRecord) ∧
        ((⟨"y", "number"⟩ : ExportedFunctionParam).Typ = "number" →
          (utf8 "!args[" ++ utf8 (toString 1) ++ utf8 "]->IsNumber()") <:+: wrapperCode sumRecord ∧
          (utf8 "auto " ++ (utf8 "go_" ++ utf8 (⟨"y", "number"⟩ : ExportedFunctionParam).Name) ++ utf8 " = args[" ++ utf8 (toString 1) ++
            utf8 "].As<Number>()->Value();") <:+: wrapperCode sumRecord) ∧
        (sumRecord.ReturnType = "string" →
          utf8 "auto nodeResult = String::NewFromUtf8(isolate, result, NewStringType::kNormal).ToLocalChecked();"
            <:+: wrapperCode sumRecord) ∧
        (sumRecord.ReturnType = "number" →
          utf8 "auto nodeResult = Number::New(isolate, result);" <:+: wrapperCode sumRecord) ∧
      (utf8 "!args[0]->IsNumber()" <:+: wrapperCode sumRecord ∧
        utf8 "auto go_x = args[0].As<Number>()->Value();" <:+: wrapperCode sumRecord ∧
        utf8 "!args[1]->IsNumber()" <:+: wrapperCode sumRecord ∧
        utf8 "auto go_y = args[1].As<Number>()->Value();" <:+: wrapperCode sumRecord ∧
        utf8 "auto nodeResult = Number::New(isolate, result);" <:+: wrapperCode sumRecord) ∧
      (utf8 "!args[1]->IsString()" <:+: wrapperCode greetRecord ∧
        utf8 "String::Utf8Value go_name_s(isolate, args[1]);\n    \t\tchar* go_name = *go_name_s;"
          <:+: wrapperCode greetRecord ∧
        utf8 "auto nodeResult = String::NewFromUtf8(isolate, result, NewStringType::kNormal).ToLocalChecked();"
          <:+: wrapperCode greetRecord) :=
  C18_checks_and_conversions (NewCppGenerator "calculator") sumRecord 1 ⟨"y", "number"⟩
    (Or.inr rfl) rfl

/-- C19: for every IR record that the native emitter accepts, the wrapper
contains the call `auto result = <Name>(<args>)` where `<args>` is the local
variables `go_<paramName>` of the parameters, one per parameter and in
parameter order, joined by a comma and a space with no trailing separator;
without parameters the call is `auto result = <Name>()`, and for the record of
`Sum` it is `auto result = Sum(go_x, go_y)`. -/
theorem C19_delegated_call (g : CppGenerator) (f : ExportedFunction)
    (hret : supportedReturnType f) :
    g.generateCodeForFunction f = .ok (wrapperCode f) ∧
      (utf8 "auto result = " ++ utf8 f.Name ++ utf8 "(" ++
        JoinBytes (f.Params.map (fun param => utf8 "go_" ++ utf8 param.Name)) (utf8 ", ") ++
        utf8 ")") <:+: wrapperCode f ∧
      (f.Params.map (fun param => utf8 "go_" ++ utf8 param.Name)).length = f.Params.length ∧
      (f.Params = [] →
        (utf8 "auto result = " ++ utf8 f.Name ++ utf8 "()") <:+: wrapperCode f) ∧
      utf8 "auto result = Sum(go_x, go_y)" <:+: wrapperCode sumRecord := by
  have hcall : ∀ f1 : ExportedFunction, callText f1 <:+: wrapperCode f1 := by
    intro f1
    rw [wrapperCode_eq, callCode_eq]
    exact ⟨wrapperHead f1 ++ argCountCheck f1.Params.length ++ argTypeChecks f1.Params 0 ++
      argConversions f1.Params 0 ++ utf8 "// Call the function exported from Go.\n" ++
      utf8 "\n\t\t", utf8 ";\n\t" ++ wrapperResult f1, by simp only [List.append_assoc]⟩
  refine ⟨generateCodeForFunction_ok g f hret, hcall f, by simp, ?_, ?_⟩
  · intro hnil
    have h := hcall f
    have h1 : utf8 "()" = utf8 "(" ++ utf8 ")" := by decide
    unfold callText at h
    rw [hnil] at h
    simpa [JoinBytes, h1, List.append_assoc] using h
  · have h := hcall sumRecord
    have h1 : callText sumRecord = utf8 "auto result = Sum(go_x, go_y)" := by decide
    rwa [h1] at h

/-- C19 (witness): the statement at the record of `Sum`. -/
theorem C19_delegated_call_witness :
    (NewCppGenerator "calculator").generateCodeForFunction sumRecord =
        .ok (wrapperCode sumRecord) ∧
      (utf8 "auto result = " ++ utf8 sumRecord.Name ++ utf8 "(" ++
        JoinBytes (sumRecord.Params.map (fun param => utf8 "go_" ++ utf8 param.Name))
          (utf8 ", ") ++
        utf8 ")") <:+: wrapperCode sumRecord ∧
      (sumRecord.Params.map (fun param => utf8 "go_" ++ utf8 param.Name)).length =
        sumRecord.Params.length ∧
      (sumRecord.Params = [] →
        (utf8 "auto result = " ++ utf8 sumRecord.Name ++ utf8 "()") <:+:
          wrapperCode sumRecord) ∧
      utf8 "auto result = Sum(go_x, go_y)" <:+: wrapperCode sumRecord :=
  C19_delegated_call (NewCppGenerator "calculator") sumRecord (Or.inr rfl)

/-! ## Claims about the outputs for the empty sequence -/

/-- C20: for the empty IR sequence and every non-empty addon name both
emitters succeed; the C++ output is the includes, the opening of the
namespace, an `Init` routine with an empty body, the `NODE_MODULE` directive
and the end of the namespace, with no wrapper and no registration; the
TypeScript output is an interface without members followed by the require
binding and `export default addon;`.  For the addon name `calculator` the
texts `_Func` and `NODE_SET_METHOD` do not occur in the C++ output. -/
theorem C20_empty_sequence (addonName : String) (haddon : addonName ≠ "") :
    (NewCppGenerator addonName).Generate [] =
        .ok (utf8 "\n\t#include \"../" ++ utf8 addonName ++
          utf8 ".h\"\n\t#include <node.h>\n" ++ utf8 "\n\t\tnamespace " ++ utf8 addonName ++
          utf8 " \x7b\n\t\t\tusing namespace v8;\n\t\t\tusing namespace node;\n\t\t" ++
          utf8 "void Init(Local<Object> exports) \x7b" ++ utf8 "\x7d" ++
          utf8 "NODE_MODULE(NODE_GYP_MODULE_NAME, Init)" ++ utf8 "\x7d") ∧
      (NewTypeScriptGenerator addonName).Generate [] =
        .ok (utf8 "export interface " ++ upperFirstByte (utf8 addonName) ++ utf8 " \x7b" ++
          utf8 "\n\x7d" ++ utf8 "\n\t\tconst addon: " ++ upperFirstByte (utf8 addonName) ++
          utf8 " = require(\"" ++ utf8 addonName ++ utf8 "\");\n\t" ++
          utf8 "export default addon;") ∧
      (∃ out, (NewCppGenerator "calculator").Generate [] = .ok out ∧
        ¬ utf8 "_Func" <:+: out ∧ ¬ utf8 "NODE_SET_METHOD" <:+: out) := by
  refine ⟨?_, ?_, ⟨cppCode (NewCppGenerator "calculator") [], ?_, ?_, ?_⟩⟩
  · rw [cppGenerate_ok (NewCppGenerator addonName) [] (by simp) (by simp)]
    simp [cppCode, cppPreamble, NewCppGenerator, List.append_assoc]
  · rw [tsGenerate_ok (NewTypeScriptGenerator addonName) [] haddon (by simp)]
    simp [typeScriptCode, NewTypeScriptGenerator, List.append_assoc]
  · exact cppGenerate_ok _ [] (by simp) (by simp)
  · decide
  · decide

/-- C20 (witness): the statement at the addon name `calculator`. -/
theorem C20_empty_sequence_witness :
    (NewCppGenerator "calculator").Generate [] =
        .ok (utf8 "\n\t#include \"../" ++ utf8 "calculator" ++
          utf8 ".h\"\n\t#include <node.h>\n" ++ utf8 "\n\t\tnamespace " ++ utf8 "calculator" ++
          utf8 " \x7b\n\t\t\tusing namespace v8;\n\t\t\tusing namespace node;\n\t\t" ++
          utf8 "void Init(Local<Object> exports) \x7b" ++ utf8 "\x7d" ++
          utf8 "NODE_MODULE(NODE_GYP_MODULE_NAME, Init)" ++ utf8 "\x7d") ∧
      (NewTypeScriptGenerator "calculator").Generate [] =
        .ok (utf8 "export interface " ++ upperFirstByte (utf8 "calculator") ++ utf8 " \x7b" ++
          utf8 "\n\x7d" ++ utf8 "\n\t\tconst addon: " ++ upperFirstByte (utf8 "calculator") ++
          utf8 " = require(\"" ++ utf8 "calculator" ++ utf8 "\");\n\t" ++
          utf8 "export default addon;") ∧
      (∃ out, (NewCppGenerator "calculator").Generate [] = .ok out ∧
        ¬ utf8 "_Func" <:+: out ∧ ¬ utf8 "NODE_SET_METHOD" <:+: out) :=
  C20_empty_sequence "calculator" (by decide)


/-! ## Claims about the slice expressions of the emitters -/

theorem utf8_eq_nil_iff (s : String) : utf8 s = [] ↔ s = "" := by
  constructor
  · intro h
    by_contra hne
    exact utf8_ne_nil s hne h
  · intro h
    rw [h]
    rfl

theorem lowerFirst_outOfRange_iff (s : Bytes) : lowerFirst s = .sliceOutOfRange ↔ s = [] := by
  cases s with
  | nil => exact ⟨fun _ => rfl, fun _ => rfl⟩
  | cons b rest =>
    constructor
    · intro h; cases h
    · intro h; cases h

theorem upperFirst_outOfRange_iff (s : Bytes) : upperFirst s = .sliceOutOfRange ↔ s = [] := by
  cases s with
  | nil => exact ⟨fun _ => rfl, fun _ => rfl⟩
  | cons b rest =>
    constructor
    · intro h; cases h
    · intro h; cases h

theorem membersLoop_outOfRange (fs : List ExportedFunction) (h : ∃ f ∈ fs, f.Name = "") :
    ∀ code, membersLoop fs code = .sliceOutOfRange := by
  induction fs with
  | nil =>
    obtain ⟨f, hf, -⟩ := h
    exact absurd hf (List.not_mem_nil f)
  | cons f rest ih =>
    intro code
    by_cases hname : f.Name = ""
    · have hf : lowerFirst (utf8 f.Name) = .sliceOutOfRange :=
        (lowerFirst_outOfRange_iff _).2 ((utf8_eq_nil_iff _).2 hname)
      simp only [membersLoop, hf]
    · have hrest : ∃ f1 ∈ rest, f1.Name = "" := by
        obtain ⟨f1, hmem, hempty⟩ := h
        rcases List.mem_cons.1 hmem with h1 | h1
        · subst h1; exact absurd hempty hname
        · exact ⟨f1, h1, hempty⟩
      simp only [membersLoop, lowerFirst_ok (utf8 f.Name) (utf8_ne_nil f.Name hname),
        ih hrest]

theorem initLoop_outOfRange (fs : List ExportedFunction) (h : ∃ f ∈ fs, f.Name = "") :
    ∀ code, initLoop fs code = .sliceOutOfRange := by
  induction fs with
  | nil =>
    obtain ⟨f, hf, -⟩ := h
    exact absurd hf (List.not_mem_nil f)
  | cons f rest ih =>
    intro code
    by_cases hname : f.Name = ""
    · have hf : lowerFirst (utf8 f.Name) = .sliceOutOfRange :=
        (lowerFirst_outOfRange_iff _).2 ((utf8_eq_nil_iff _).2 hname)
      simp only [initLoop, hf]
    · have hrest : ∃ f1 ∈ rest, f1.Name = "" := by
        obtain ⟨f1, hmem, hempty⟩ := h
        rcases List.mem_cons.1 hmem with h1 | h1
        · subst h1; exact absurd hempty hname
        · exact ⟨f1, h1, hempty⟩
      simp only [initLoop, lowerFirst_ok (utf8 f.Name) (utf8_ne_nil f.Name hname),
        ih hrest]

theorem tsGenerate_outOfRange (g : TypeScriptGenerator) (fs : List ExportedFunction)
    (h : g.addonName = "" ∨ ∃ f ∈ fs, f.Name = "") : g.Generate fs = .sliceOutOfRange := by
  unfold TypeScriptGenerator.Generate
  by_cases haddon : g.addonName = ""
  · have hu : upperFirst (utf8 g.addonName) = .sliceOutOfRange :=
      (upperFirst_outOfRange_iff _).2 ((utf8_eq_nil_iff _).2 haddon)
    simp only [hu]
  · rcases h with h | h
    · exact absurd h haddon
    · simp only [upperFirst_ok (utf8 g.addonName) (utf8_ne_nil g.addonName haddon),
        membersLoop_outOfRange fs h]

theorem cppGenerate_outOfRange (g : CppGenerator) (fs : List ExportedFunction)
    (hret : ∀ f ∈ fs, supportedReturnType f) (h : ∃ f ∈ fs, f.Name = "") :
    g.Generate fs = .sliceOutOfRange := by
  unfold CppGenerator.Generate
  simp only [wrappersLoop_ok g fs hret, initLoop_outOfRange fs h]


/-- C21: the slice expressions `addonName[:1]` and `Name[:1]` are out of range
exactly for the empty string; `TypeScriptGenerator.Generate` returns a string
and no error exactly when the addon name and every function name are not
empty, and aborts on the slice expression, returning nothing, exactly when the
addon name or some function name is empty; it never returns an error.  The
`Init` loop of `CppGenerator.Generate`, reached when every return type is
supported, aborts in the same way exactly when some function name is empty.  A
configuration without the key `name` has the empty addon name, for which the
declaration emitter returns nothing. -/
theorem C21_slicing_safe_iff_non_empty (addonName : String) (fs : List ExportedFunction) :
    (upperFirst (utf8 addonName) = .sliceOutOfRange ↔ addonName = "") ∧
      (∀ f : ExportedFunction, lowerFirst (utf8 f.Name) = .sliceOutOfRange ↔ f.Name = "") ∧
      ((addonName ≠ "" ∧ ∀ f ∈ fs, f.Name ≠ "") ↔
        ∃ out, (NewTypeScriptGenerator addonName).Generate fs = .ok out) ∧
      ((addonName = "" ∨ ∃ f ∈ fs, f.Name = "") ↔
        (NewTypeScriptGenerator addonName).Generate fs = .sliceOutOfRange) ∧
      (∀ e, (NewTypeScriptGenerator addonName).Generate fs ≠ .err e) ∧
      ((∀ f ∈ fs, supportedReturnType f) →
        (((∀ f ∈ fs, f.Name ≠ "") ↔
            ∃ out, (NewCppGenerator addonName).Generate fs = .ok out) ∧
          ((∃ f ∈ fs, f.Name = "") ↔
            (NewCppGenerator addonName).Generate fs = .sliceOutOfRange))) ∧
      (∀ files outputDirectory, ∃ config,
        NewFromReader (.ok ⟨files, outputDirectory, none⟩) = .ok config ∧
          config.AddonName = "" ∧
          (NewTypeScriptGenerator config.AddonName).Generate fs = .sliceOutOfRange) := by
  have hsplit : (addonName ≠ "" ∧ ∀ f ∈ fs, f.Name ≠ "") ∨
      (addonName = "" ∨ ∃ f ∈ fs, f.Name = "") := by
    by_cases h1 : addonName = ""
    · exact Or.inr (Or.inl h1)
    · by_cases h2 : ∃ f ∈ fs, f.Name = ""
      · exact Or.inr (Or.inr h2)
      · refine Or.inl ⟨h1, fun f hf hname => h2 ⟨f, hf, hname⟩⟩
  have hok : (addonName ≠ "" ∧ ∀ f ∈ fs, f.Name ≠ "") →
      (NewTypeScriptGenerator addonName).Generate fs =
        .ok (typeScriptCode (NewTypeScriptGenerator addonName) fs) :=
    fun h => tsGenerate_ok (NewTypeScriptGenerator addonName) fs h.1 h.2
  have hbad : (addonName = "" ∨ ∃ f ∈ fs, f.Name = "") →
      (NewTypeScriptGenerator addonName).Generate fs = .sliceOutOfRange :=
    fun h => tsGenerate_outOfRange (NewTypeScriptGenerator addonName) fs h
  refine ⟨?_, ?_, ⟨?_, ?_⟩, ⟨hbad, ?_⟩, ?_, ?_, ?_⟩
  · rw [upperFirst_outOfRange_iff, utf8_eq_nil_iff]
  · intro f
    rw [lowerFirst_outOfRange_iff, utf8_eq_nil_iff]
  · intro h
    exact ⟨_, hok h⟩
  · rintro ⟨out, hout⟩
    rcases hsplit with h | h
    · exact h
    · rw [hbad h] at hout
      cases hout
  · intro hres
    rcases hsplit with h | h
    · rw [hok h] at hres
      cases hres
    · exact h
  · intro e he
    rcases hsplit with h | h
    · rw [hok h] at he
      cases he
    · rw [hbad h] at he
      cases he
  · intro hret
    by_cases hempty : ∃ f ∈ fs, f.Name = ""
    · have hc := cppGenerate_outOfRange (NewCppGenerator addonName) fs hret hempty
      refine ⟨⟨?_, ?_⟩, ⟨fun _ => hc, fun _ => hempty⟩⟩
      · intro hall
        obtain ⟨f, hf, hname⟩ := hempty
        exact absurd hname (hall f hf)
      · rintro ⟨out, hout⟩
        rw [hc] at hout
        cases hout
    · have hall : ∀ f ∈ fs, f.Name ≠ "" := fun f hf hname => hempty ⟨f, hf, hname⟩
      have hc := cppGenerate_ok (NewCppGenerator addonName) fs hret hall
      refine ⟨⟨fun _ => ⟨_, hc⟩, fun _ => hall⟩, ⟨fun h => absurd h hempty, ?_⟩⟩
      intro hres
      rw [hc] at hres
      cases hres
  · intro files outputDirectory
    exact ⟨⟨files.getD [], outputDirectory.getD "", ""⟩, rfl, rfl,
      tsGenerate_outOfRange (NewTypeScriptGenerator "") fs (Or.inl rfl)⟩

/-- C21 (witness): the statement at the addon name `calculator` and the record
of `Sum`. -/
theorem C21_slicing_safe_iff_non_empty_witness :
    (upperFirst (utf8 "calculator") = .sliceOutOfRange ↔ ("calculator" : String) = "") ∧
      (∀ f : ExportedFunction, lowerFirst (utf8 f.Name) = .sliceOutOfRange ↔ f.Name = "") ∧
      ((("calculator" : String) ≠ "" ∧ ∀ f ∈ [sumRecord], f.Name ≠ "") ↔
        ∃ out, (NewTypeScriptGenerator "calculator").Generate [sumRecord] = .ok out) ∧
      ((("calculator" : String) = "" ∨ ∃ f ∈ [sumRecord], f.Name = "") ↔
        (NewTypeScriptGenerator "calculator").Generate [sumRecord] = .sliceOutOfRange) ∧
      (∀ e, (NewTypeScriptGenerator "calculator").Generate [sumRecord] ≠ .err e) ∧
      ((∀ f ∈ [sumRecord], supportedReturnType f) →
        (((∀ f ∈ [sumRecord], f.Name ≠ "") ↔
            ∃ out, (NewCppGenerator "calculator").Generate [sumRecord] = .ok out) ∧
          ((∃ f ∈ [sumRecord], f.Name = "") ↔
            (NewCppGenerator "calculator").Generate [sumRecord] = .sliceOutOfRange))) ∧
      (∀ files outputDirectory, ∃ config,
        NewFromReader (.ok ⟨files, outputDirectory, none⟩) = .ok config ∧
          config.AddonName = "" ∧
          (NewTypeScriptGenerator config.AddonName).Generate [sumRecord] =
            .sliceOutOfRange) :=
  C21_slicing_safe_iff_non_empty "calculator" [sumRecord]


end Gonode
